import Mathlib

/-!
Shallow embedding of the cart-service consistency core:
the catalog gateway (`product_client.py`), the cart store
(`cart_repository.py` over the models in `cart.py`) and the consistency
engine (`cart_service.py`).  Machine state (the relational store) is made
explicit as a `Store` value threaded through every operation; catalog
calls are a function from product id to a fetch outcome (HTTP response,
timeout or transport error), mirroring the failure handling in the
client.  Prices (Python `Decimal`) are rationals; quantities and stocks
are naturals.
-/

namespace CartCore

abbrev ProductId := Nat
abbrev UserId := Nat

/-- One element of a product payload's `images` list: `{url, is_primary}`. -/
structure ProductImage where
  url : String
  is_primary : Bool
deriving Repr, DecidableEq

/-- A product snapshot as returned by the catalog (`{title, price, stock,
is_active, images}`); `in_stock` is an optional key — the cart side reads
it with `.get('in_stock', False)`. -/
structure Product where
  title : String
  price : ℚ
  stock : Nat
  is_active : Bool
  in_stock : Option Bool
  images : List ProductImage
deriving Repr, DecidableEq

/-- Outcome of one HTTP fetch of a product: a response with a status
code (body meaningful only when the code is 200), a timeout, or any
other transport/communication error. -/
inductive FetchOutcome where
  | response (status_code : Nat) (body : Product)
  | timeout
  | transportError
deriving Repr, DecidableEq

/-- The external catalog as seen over the network: every product id is
mapped to the outcome of fetching it. -/
abbrev Catalog := ProductId → FetchOutcome

/-- `ProductServiceClient.get_product`: 200 parses the body, 404 and any
other status return `None`, timeouts and transport errors are swallowed
and return `None`. -/
def get_product (cat : Catalog) (pid : ProductId) : Option Product :=
  match cat pid with
  | .response code body => if code == 200 then some body else none
  | .timeout => none
  | .transportError => none

/-- `ProductServiceClient.get_products_batch`: per-id fetch; only 200
responses are recorded, exceptions are caught and the id skipped. -/
def get_products_batch (cat : Catalog) (ids : List ProductId) :
    List (ProductId × Product) :=
  ids.filterMap fun pid =>
    match cat pid with
    | .response code body => if code == 200 then some (pid, body) else none
    | .timeout => none
    | .transportError => none

/-- `ProductServiceClient.check_product_availability`. -/
def check_product_availability (cat : Catalog) (pid : ProductId)
    (quantity : Nat) : Bool :=
  match get_product cat pid with
  | none => false
  | some p => p.is_active && decide (quantity ≤ p.stock)

/-- A `valid` entry produced by `validate_products`. -/
structure ValidItem where
  product_id : ProductId
  quantity : Nat
  price : ℚ
deriving Repr, DecidableEq

/-- An `invalid` entry produced by `validate_products`. -/
structure InvalidItem where
  product_id : ProductId
  reason : String
deriving Repr, DecidableEq

/-- The classification loop of `ProductServiceClient.validate_products`,
with the batch-fetch result fixed. -/
def validate_products_loop (products : List (ProductId × Product)) :
    List (ProductId × Nat) → List ValidItem × List InvalidItem
  | [] => ([], [])
  | (pid, quantity) :: rest =>
    let (v, inv) := validate_products_loop products rest
    match products.lookup pid with
    | none => (v, ⟨pid, "Product not found"⟩ :: inv)
    | some p =>
      if !p.is_active then (v, ⟨pid, "Product is not active"⟩ :: inv)
      else if p.stock < quantity then
        (v, ⟨pid, "Insufficient stock (available: " ++ toString p.stock ++ ")"⟩ :: inv)
      else (⟨pid, quantity, p.price⟩ :: v, inv)

/-- `ProductServiceClient.validate_products`. -/
def validate_products (cat : Catalog) (items : List (ProductId × Nat)) :
    List ValidItem × List InvalidItem :=
  validate_products_loop (get_products_batch cat (items.map Prod.fst)) items

/-! ## The cart store (`cart.py` models + `cart_repository.py`) -/

/-- A `cart_items` row. -/
structure CartItem where
  id : Nat
  cart_id : Nat
  product_id : ProductId
  quantity : Nat
  price : ℚ
deriving Repr, DecidableEq

/-- A `carts` row. -/
structure Cart where
  id : Nat
  user_id : UserId
deriving Repr, DecidableEq

/-- The relational store: both tables plus a fresh-id counter standing
for the database's id generation. -/
structure Store where
  carts : List Cart
  items : List CartItem
  next_id : Nat
deriving Repr, DecidableEq

def emptyStore : Store := ⟨[], [], 0⟩

/-- `CartRepository.get_cart_by_user_id`. -/
def get_cart_by_user_id (s : Store) (uid : UserId) : Option Cart :=
  s.carts.find? fun c => c.user_id == uid

/-- `CartRepository.create_cart`. -/
def create_cart (s : Store) (uid : UserId) : Cart × Store :=
  let cart : Cart := ⟨s.next_id, uid⟩
  (cart, { s with carts := s.carts ++ [cart], next_id := s.next_id + 1 })

/-- `CartRepository.get_or_create_cart`. -/
def get_or_create_cart (s : Store) (uid : UserId) : Cart × Store :=
  match get_cart_by_user_id s uid with
  | some cart => (cart, s)
  | none => create_cart s uid

/-- The `Cart.items` relationship: all rows of the cart. -/
def cart_items (s : Store) (cid : Nat) : List CartItem :=
  s.items.filter fun it => it.cart_id == cid

/-- `CartRepository.get_cart_item`: first row matching (cart, product). -/
def get_cart_item (s : Store) (cid : Nat) (pid : ProductId) : Option CartItem :=
  s.items.find? fun it => it.cart_id == cid && it.product_id == pid

/-- Mutate the first row matching (cart, product): increment its
quantity and overwrite its price, as the update branch of
`CartRepository.add_item` does on the queried row. -/
def bump_first_item : List CartItem → Nat → ProductId → Nat → ℚ → List CartItem
  | [], _, _, _, _ => []
  | it :: rest, cid, pid, quantity, price =>
    if it.cart_id == cid && it.product_id == pid then
      { it with quantity := it.quantity + quantity, price := price } :: rest
    else it :: bump_first_item rest cid pid quantity price

/-- `CartRepository.add_item`: update the existing row if present,
otherwise insert a new row. -/
def repo_add_item (s : Store) (cid : Nat) (pid : ProductId)
    (quantity : Nat) (price : ℚ) : Store :=
  match get_cart_item s cid pid with
  | some _ => { s with items := bump_first_item s.items cid pid quantity price }
  | none =>
    { s with items := s.items ++ [⟨s.next_id, cid, pid, quantity, price⟩],
             next_id := s.next_id + 1 }

/-- Set the quantity of the first row matching (cart, product). -/
def set_first_item_quantity : List CartItem → Nat → ProductId → Nat → List CartItem
  | [], _, _, _ => []
  | it :: rest, cid, pid, quantity =>
    if it.cart_id == cid && it.product_id == pid then
      { it with quantity := quantity } :: rest
    else it :: set_first_item_quantity rest cid pid quantity

/-- `CartRepository.update_item_quantity`. -/
def update_item_quantity (s : Store) (cid : Nat) (pid : ProductId)
    (quantity : Nat) : Store :=
  match get_cart_item s cid pid with
  | none => s
  | some _ => { s with items := set_first_item_quantity s.items cid pid quantity }

/-- Delete the first row matching (cart, product). -/
def remove_first_item : List CartItem → Nat → ProductId → List CartItem
  | [], _, _ => []
  | it :: rest, cid, pid =>
    if it.cart_id == cid && it.product_id == pid then rest
    else it :: remove_first_item rest cid pid

/-- `CartRepository.remove_item`. -/
def remove_item (s : Store) (cid : Nat) (pid : ProductId) : Bool × Store :=
  match get_cart_item s cid pid with
  | none => (false, s)
  | some _ => (true, { s with items := remove_first_item s.items cid pid })

/-- `CartRepository.clear_cart`. -/
def clear_cart (s : Store) (cid : Nat) : Bool × Store :=
  match s.carts.find? fun c => c.id == cid with
  | none => (false, s)
  | some _ => (true, { s with items := s.items.filter fun it => !(it.cart_id == cid) })

/-- Find a row by its primary key. -/
def find_item_by_id (items : List CartItem) (iid : Nat) : Option CartItem :=
  items.find? fun it => it.id == iid

/-- Overwrite the price of the first row with the given id. -/
def set_first_price_by_id : List CartItem → Nat → ℚ → List CartItem
  | [], _, _ => []
  | it :: rest, iid, price =>
    if it.id == iid then { it with price := price } :: rest
    else it :: set_first_price_by_id rest iid price

/-- `CartRepository.update_item_price`. -/
def update_item_price (s : Store) (iid : Nat) (price : ℚ) : Store :=
  match find_item_by_id s.items iid with
  | none => s
  | some _ => { s with items := set_first_price_by_id s.items iid price }

/-! ## The consistency engine (`cart_service.py`) -/

/-- The engine's typed failures (raised as `ValueError`s in the source,
classified per the error taxonomy of the spec). -/
inductive CartError where
  | productNotFound
  | productUnavailable
  | insufficientStock (available : Nat)
  | cartNotFound
  | itemNotInCart
  | quantityNotAvailable
  | cartEmpty
deriving Repr, DecidableEq

/-- The `CartItemAdd` request payload. -/
structure CartItemAdd where
  product_id : ProductId
  quantity : Nat
deriving Repr, DecidableEq

/-- An enriched line item (`CartItemResponse`). -/
structure CartItemResponse where
  id : Nat
  cart_id : Nat
  product_id : ProductId
  quantity : Nat
  price : ℚ
  total_price : ℚ
  product_title : Option String
  product_image : Option String
  product_in_stock : Option Bool
deriving Repr, DecidableEq

/-- `CartResponse`. -/
structure CartResponse where
  id : Nat
  user_id : UserId
  items : List CartItemResponse
  total_items : Nat
  subtotal : ℚ
deriving Repr, DecidableEq

/-- `CheckoutResponse`. -/
structure CheckoutResponse where
  cart_id : Nat
  total_items : Nat
  subtotal : ℚ
  shipping_address : String
  billing_address : String
  items : List CartItemResponse
  available_for_checkout : Bool
  unavailable_items : List ProductId
deriving Repr, DecidableEq

/-- `Cart.total_items`: sum of item quantities (computed on read). -/
def total_items (items : List CartItem) : Nat :=
  (items.map fun it => it.quantity).sum

/-- `Cart.subtotal`: sum of quantity × price (computed on read). -/
def subtotal (items : List CartItem) : ℚ :=
  (items.map fun it => (it.quantity : ℚ) * it.price).sum

/-- The primary-image selection in `_enrich_cart_items`: first image
flagged primary, else the first image, else none. -/
def primary_image (images : List ProductImage) : Option String :=
  match images.find? fun img => img.is_primary with
  | some img => some img.url
  | none => images.head?.map fun img => img.url

/-- The per-item body of `CartService._enrich_cart_items`, given the
batch-fetch result: present products supply title, primary image and
the `in_stock` key (defaulted to `False` when the key is missing);
absent products leave title and image as `None` and `in_stock`
defaulted to `False`. -/
def enrich_cart_item (products : List (ProductId × Product))
    (it : CartItem) : CartItemResponse :=
  match products.lookup it.product_id with
  | some p =>
    { id := it.id, cart_id := it.cart_id, product_id := it.product_id,
      quantity := it.quantity, price := it.price,
      total_price := (it.quantity : ℚ) * it.price,
      product_title := some p.title,
      product_image := primary_image p.images,
      product_in_stock := some (p.in_stock.getD false) }
  | none =>
    { id := it.id, cart_id := it.cart_id, product_id := it.product_id,
      quantity := it.quantity, price := it.price,
      total_price := (it.quantity : ℚ) * it.price,
      product_title := none,
      product_image := none,
      product_in_stock := some false }

/-- `CartService._enrich_cart_items`: one batch fetch for all items,
then one enriched response per line item. -/
def enrich_cart_items (cat : Catalog) (items : List CartItem) :
    List CartItemResponse :=
  if items.isEmpty then []
  else
    let products := get_products_batch cat (items.map fun it => it.product_id)
    items.map (enrich_cart_item products)

/-- `CartService.get_cart`. -/
def service_get_cart (cat : Catalog) (s : Store) (uid : UserId) :
    Store × CartResponse :=
  let (cart, s1) := get_or_create_cart s uid
  let its := cart_items s1 cart.id
  (s1, { id := cart.id, user_id := cart.user_id,
         items := enrich_cart_items cat its,
         total_items := total_items its, subtotal := subtotal its })

/-- `CartService.add_item`. -/
def service_add_item (cat : Catalog) (s : Store) (uid : UserId)
    (req : CartItemAdd) : Store × Except CartError CartResponse :=
  let (cart, s1) := get_or_create_cart s uid
  match get_product cat req.product_id with
  | none => (s1, .error .productNotFound)
  | some product =>
    if !product.is_active then (s1, .error .productUnavailable)
    else
      let current := get_cart_item s1 cart.id req.product_id
      let new_quantity := req.quantity +
        (match current with | some it => it.quantity | none => 0)
      if product.stock < new_quantity then
        (s1, .error (.insufficientStock product.stock))
      else
        let s2 := repo_add_item s1 cart.id req.product_id req.quantity product.price
        let (s3, resp) := service_get_cart cat s2 uid
        (s3, .ok resp)

/-- `CartService.update_item`. -/
def service_update_item (cat : Catalog) (s : Store) (uid : UserId)
    (pid : ProductId) (quantity : Nat) : Store × Except CartError CartResponse :=
  match get_cart_by_user_id s uid with
  | none => (s, .error .cartNotFound)
  | some cart =>
    match get_cart_item s cart.id pid with
    | none => (s, .error .itemNotInCart)
    | some _ =>
      if !check_product_availability cat pid quantity then
        (s, .error .quantityNotAvailable)
      else
        let s1 := update_item_quantity s cart.id pid quantity
        let (s2, resp) := service_get_cart cat s1 uid
        (s2, .ok resp)

/-- `CartService.remove_item`. -/
def service_remove_item (cat : Catalog) (s : Store) (uid : UserId)
    (pid : ProductId) : Store × Except CartError CartResponse :=
  match get_cart_by_user_id s uid with
  | none => (s, .error .cartNotFound)
  | some cart =>
    let (ok, s1) := remove_item s cart.id pid
    if !ok then (s1, .error .itemNotInCart)
    else
      let (s2, resp) := service_get_cart cat s1 uid
      (s2, .ok resp)

/-- `CartService.clear_cart`. -/
def service_clear_cart (s : Store) (uid : UserId) : Store × Bool :=
  match get_cart_by_user_id s uid with
  | none => (s, false)
  | some cart =>
    let (ok, s1) := clear_cart s cart.id
    (s1, ok)

/-- The per-item loop of `CartService.add_items_bulk`: validate the
product, record an error string on any failure, otherwise persist; one
item's failure never stops the remaining items. -/
def bulk_loop (cat : Catalog) (cid : Nat) :
    List CartItemAdd → Store → Store × (Nat × Nat × List String)
  | [], s => (s, (0, 0, []))
  | req :: rest, s =>
    let step : Store × (Nat × Nat × List String) :=
      match get_product cat req.product_id with
      | none =>
        (s, (0, 1, ["Product " ++ toString req.product_id ++ " not available"]))
      | some product =>
        if !product.is_active then
          (s, (0, 1, ["Product " ++ toString req.product_id ++ " not available"]))
        else if product.stock < req.quantity then
          (s, (0, 1, ["Product " ++ toString req.product_id ++ " insufficient stock"]))
        else
          (repo_add_item s cid req.product_id req.quantity product.price, (1, 0, []))
    let (s1, acc) := step
    let (s2, accRest) := bulk_loop cat cid rest s1
    (s2, (acc.1 + accRest.1, acc.2.1 + accRest.2.1, acc.2.2 ++ accRest.2.2))

/-- `CartService.add_items_bulk`: returns (success, failed, errors). -/
def service_add_items_bulk (cat : Catalog) (s : Store) (uid : UserId)
    (reqs : List CartItemAdd) : Store × (Nat × Nat × List String) :=
  let (cart, s1) := get_or_create_cart s uid
  bulk_loop cat cart.id reqs s1

/-- `CartService.prepare_checkout`. -/
def service_prepare_checkout (cat : Catalog) (s : Store) (uid : UserId)
    (shipping : String) (billing : Option String) :
    Store × Except CartError CheckoutResponse :=
  match get_cart_by_user_id s uid with
  | none => (s, .error .cartEmpty)
  | some cart =>
    let its := cart_items s cart.id
    if its.isEmpty then (s, .error .cartEmpty)
    else
      let items_data := its.map fun it => (it.product_id, it.quantity)
      let invalid := (validate_products cat items_data).2
      let enriched := enrich_cart_items cat its
      let unavailable := invalid.map fun item => item.product_id
      (s, .ok { cart_id := cart.id,
                total_items := total_items its,
                subtotal := subtotal its,
                shipping_address := shipping,
                billing_address := billing.getD shipping,
                items := enriched,
                available_for_checkout := unavailable.length == 0,
                unavailable_items := unavailable })

/-- The update loop of `CartService.sync_prices`: for each loaded item,
if the product is in the batch result and its live price differs from
the stored one, overwrite the stored price (by item id). -/
def sync_loop (products : List (ProductId × Product)) :
    List CartItem → Store → Store
  | [], s => s
  | it :: rest, s =>
    let s1 :=
      match products.lookup it.product_id with
      | none => s
      | some p => if p.price ≠ it.price then update_item_price s it.id p.price else s
    sync_loop products rest s1

/-- `CartService.sync_prices`. -/
def service_sync_prices (cat : Catalog) (s : Store) (uid : UserId) :
    Store × CartResponse :=
  match get_cart_by_user_id s uid with
  | none => service_get_cart cat s uid
  | some cart =>
    let its := cart_items s cart.id
    if its.isEmpty then service_get_cart cat s uid
    else
      let products := get_products_batch cat (its.map fun it => it.product_id)
      let s1 := sync_loop products its s
      service_get_cart cat s1 uid

/-! ## Derived characterizations used by the theorems -/

/-- The quantity already stored in the user's cart for a product, after
the get-or-create step of `add_item` (0 when the line item is absent). -/
def existing_quantity (s : Store) (uid : UserId) (pid : ProductId) : Nat :=
  match get_cart_item (get_or_create_cart s uid).2 (get_or_create_cart s uid).1.id pid with
  | some it => it.quantity
  | none => 0

/-- Does a (product, quantity) pair fail checkout validation: product
not fetched, inactive, or understocked. -/
def failsValidation (cat : Catalog) (pid : ProductId) (quantity : Nat) : Bool :=
  match get_product cat pid with
  | none => true
  | some p => !p.is_active || decide (p.stock < quantity)

/-- The reason string `validate_products` attaches to a failing item,
`none` for a valid one; precedence: not-found, then inactive, then
insufficient stock. -/
def classify_reason (cat : Catalog) (pid : ProductId) (quantity : Nat) :
    Option String :=
  match get_product cat pid with
  | none => some "Product not found"
  | some p =>
    if !p.is_active then some "Product is not active"
    else if p.stock < quantity then
      some ("Insufficient stock (available: " ++ toString p.stock ++ ")")
    else none

/-- The valid entry `validate_products` emits for a passing item. -/
def classify_valid (cat : Catalog) (pid : ProductId) (quantity : Nat) :
    Option ValidItem :=
  match get_product cat pid with
  | none => none
  | some p =>
    if !p.is_active then none
    else if p.stock < quantity then none
    else some ⟨pid, quantity, p.price⟩

/-- Does one bulk-add request pass the per-item validation of
`add_items_bulk`. -/
def bulk_ok (cat : Catalog) (r : CartItemAdd) : Bool :=
  match get_product cat r.product_id with
  | none => false
  | some p => p.is_active && !decide (p.stock < r.quantity)

/-- The error string `add_items_bulk` records for a failing request,
`none` for a passing one. -/
def bulk_error_msg (cat : Catalog) (r : CartItemAdd) : Option String :=
  match get_product cat r.product_id with
  | none => some ("Product " ++ toString r.product_id ++ " not available")
  | some p =>
    if !p.is_active then some ("Product " ++ toString r.product_id ++ " not available")
    else if p.stock < r.quantity then
      some ("Product " ++ toString r.product_id ++ " insufficient stock")
    else none

/-- The price `add_items_bulk` persists for a passing request. -/
def bulk_price (cat : Catalog) (r : CartItemAdd) : ℚ :=
  match get_product cat r.product_id with
  | some p => p.price
  | none => 0

/-- At most one line item per (cart_id, product_id) pair. -/
def UniquePerPair (items : List CartItem) : Prop :=
  items.Pairwise fun a b => a.cart_id ≠ b.cart_id ∨ a.product_id ≠ b.product_id

instance (items : List CartItem) : Decidable (UniquePerPair items) := by
  unfold UniquePerPair; infer_instance

/-- Number of rows for a (cart, product) pair. -/
def count_pair (items : List CartItem) (cid : Nat) (pid : ProductId) : Nat :=
  (items.filter fun it => it.cart_id == cid && it.product_id == pid).length

/-- The stored price a line item ends with after a price sync against a
batch-fetch result. -/
def synced_price (cat : Catalog) (it : CartItem) : ℚ :=
  match get_product cat it.product_id with
  | some p => p.price
  | none => it.price

instance {ε α : Type} [DecidableEq ε] [DecidableEq α] :
    DecidableEq (Except ε α) := fun x y =>
  match x, y with
  | .error e, .error f =>
    if h : e = f then .isTrue (by rw [h])
    else .isFalse (by intro hc; cases hc; exact h rfl)
  | .error _, .ok _ => .isFalse (by intro hc; cases hc)
  | .ok _, .error _ => .isFalse (by intro hc; cases hc)
  | .ok a, .ok b =>
    if h : a = b then .isTrue (by rw [h])
    else .isFalse (by intro hc; cases hc; exact h rfl)

/-- Store states reachable through the engine's operations, starting
from the empty store; every mutation request carries a quantity the DTO
layer accepts (`CartItemAdd`/`CartItemUpdate` validate 1 ≤ q ≤ 100). -/
inductive Reachable : Store → Prop where
  | init : Reachable emptyStore
  | get_cart (cat : Catalog) (s : Store) (uid : UserId) :
      Reachable s → Reachable (service_get_cart cat s uid).1
  | add_item (cat : Catalog) (s : Store) (uid : UserId) (req : CartItemAdd) :
      Reachable s → 1 ≤ req.quantity → req.quantity ≤ 100 →
      Reachable (service_add_item cat s uid req).1
  | add_items_bulk (cat : Catalog) (s : Store) (uid : UserId)
      (reqs : List CartItemAdd) :
      Reachable s → (∀ r ∈ reqs, 1 ≤ r.quantity ∧ r.quantity ≤ 100) →
      Reachable (service_add_items_bulk cat s uid reqs).1
  | update_item (cat : Catalog) (s : Store) (uid : UserId) (pid : ProductId)
      (quantity : Nat) :
      Reachable s → 1 ≤ quantity → quantity ≤ 100 →
      Reachable (service_update_item cat s uid pid quantity).1
  | remove_item (cat : Catalog) (s : Store) (uid : UserId) (pid : ProductId) :
      Reachable s → Reachable (service_remove_item cat s uid pid).1
  | clear_cart (s : Store) (uid : UserId) :
      Reachable s → Reachable (service_clear_cart s uid).1
  | sync_prices (cat : Catalog) (s : Store) (uid : UserId) :
      Reachable s → Reachable (service_sync_prices cat s uid).1
  | prepare_checkout (cat : Catalog) (s : Store) (uid : UserId)
      (shipping : String) (billing : Option String) :
      Reachable s → Reachable (service_prepare_checkout cat s uid shipping billing).1

/-! ## Concrete fixtures for witnesses and counterexamples -/

/-- A catalog whose every fetch times out. -/
def catDown : Catalog := fun _ => .timeout

/-- A catalog with one active product (id 7): stock 5, price 10. -/
def catStock5 : Catalog := fun pid =>
  if pid == 7 then .response 200 ⟨"Widget", 10, 5, true, some true, []⟩
  else .timeout

/-- A store holding one cart (id 0) for user 0 and no items. -/
def storeOneCart : Store := ⟨[⟨0, 0⟩], [], 1⟩

/-- A catalog for the bulk scenario: products 1 and 3 exist and are
active with ample stock, everything else is a 404. -/
def catBulk : Catalog := fun pid =>
  if pid == 1 then .response 200 ⟨"A", 3, 10, true, some true, []⟩
  else if pid == 3 then .response 200 ⟨"C", 4, 10, true, some true, []⟩
  else .response 404 ⟨"", 0, 0, false, none, []⟩

/-- A store for user 0 with two line items: product 5 stored at price
10 and product 6 stored at price 7. -/
def storeTwoItems : Store := ⟨[⟨0, 0⟩], [⟨1, 0, 5, 2, 10⟩, ⟨2, 0, 6, 1, 7⟩], 3⟩

/-- A catalog where product 5 is live at price 12 and everything else
is unreachable. -/
def catLive12 : Catalog := fun pid =>
  if pid == 5 then .response 200 ⟨"P", 12, 9, true, some true, []⟩
  else .timeout

/-- A catalog where product 5 has been deactivated and everything else
is unreachable. -/
def catInactive5 : Catalog := fun pid =>
  if pid == 5 then .response 200 ⟨"P", 10, 9, false, some true, []⟩
  else .timeout

/-- A store for user 0 with a single line item for product 9. -/
def storeOneItem : Store := ⟨[⟨0, 0⟩], [⟨1, 0, 9, 2, 10⟩], 2⟩

/-- A store for user 0 with a single line item for product 7 (the
product `catStock5` serves). -/
def storeStock5Item : Store := ⟨[⟨0, 0⟩], [⟨1, 0, 7, 2, 10⟩], 2⟩

/-- A catalog with one active product (id 1) with stock 200. -/
def catStock200 : Catalog := fun _ =>
  .response 200 ⟨"P", 10, 200, true, some true, []⟩

/-- The store after one maximal (quantity 100) add of product 1. -/
def storeAfterAdd100 : Store :=
  (service_add_item catStock200 emptyStore 0 ⟨1, 100⟩).1

/-- The store after two maximal (quantity 100) adds of product 1: its
single line item has accumulated quantity 200. -/
def storeAfterTwoAdds : Store :=
  (service_add_item catStock200 storeAfterAdd100 0 ⟨1, 100⟩).1

/-- The line item present after the two maximal adds. -/
def itemQty200 : CartItem := ⟨1, 0, 1, 200, 10⟩

/-! ## Helper lemmas -/

theorem batch_lookup_none (cat : Catalog) (pid : ProductId)
    (h : get_product cat pid = none) :
    ∀ ids : List ProductId, (get_products_batch cat ids).lookup pid = none := by
  intro ids
  induction ids with
  | nil => rfl
  | cons i rest ih =>
    simp only [get_products_batch, List.filterMap_cons] at ih ⊢
    cases hc : cat i with
    | timeout => simpa using ih
    | transportError => simpa using ih
    | response code body =>
      by_cases h200 : (code == 200) = true
      · simp only [h200, if_true]
        by_cases hpi : (pid == i) = true
        · exfalso
          have hpi' : pid = i := by simpa using hpi
          rw [hpi', get_product, hc] at h
          simp [h200] at h
        · simpa [List.lookup, hpi] using ih
      · simpa [h200] using ih

theorem batch_lookup_mem (cat : Catalog) (pid : ProductId) :
    ∀ ids : List ProductId, pid ∈ ids →
      (get_products_batch cat ids).lookup pid = get_product cat pid := by
  intro ids
  induction ids with
  | nil => intro h; exact absurd h (List.not_mem_nil pid)
  | cons i rest ih =>
    intro hmem
    simp only [get_products_batch, List.filterMap_cons] at ih ⊢
    cases hc : cat i with
    | timeout =>
      rcases List.mem_cons.mp hmem with heq | htail
      · subst heq
        rw [show get_product cat pid = none from by rw [get_product, hc]]
        have := batch_lookup_none cat pid (by rw [get_product, hc]) rest
        simpa [get_products_batch] using this
      · simpa using ih htail
    | transportError =>
      rcases List.mem_cons.mp hmem with heq | htail
      · subst heq
        rw [show get_product cat pid = none from by rw [get_product, hc]]
        have := batch_lookup_none cat pid (by rw [get_product, hc]) rest
        simpa [get_products_batch] using this
      · simpa using ih htail
    | response code body =>
      by_cases h200 : (code == 200) = true
      · simp only [h200, if_true]
        by_cases hpi : (pid == i) = true
        · have hpi' : pid = i := by simpa using hpi
          subst hpi'
          simp [List.lookup, get_product, hc, h200]
        · rcases List.mem_cons.mp hmem with heq | htail
          · exact absurd (by simpa using heq) (by simpa using hpi)
          · simpa [List.lookup, hpi] using ih htail
      · rcases List.mem_cons.mp hmem with heq | htail
        · subst heq
          have hnone : get_product cat pid = none := by
            rw [get_product, hc]; simp [h200]
          rw [hnone]
          have := batch_lookup_none cat pid hnone rest
          simpa [get_products_batch, h200] using this
        · simpa [h200] using ih htail

/-! ## Claim theorems -/

/-- C8: `get_product` never propagates a transport failure — on
timeout, non-200 status or any other communication error it returns
not-found (`none`), indistinguishable from a missing product; and
`get_products_batch` simply omits entries for failed or missing ids
while recording a 200-fetched product under its id. -/
theorem get_product_swallows_failures (cat : Catalog) (pid : ProductId)
    (ids : List ProductId) :
    (cat pid = .timeout → get_product cat pid = none)
  ∧ (cat pid = .transportError → get_product cat pid = none)
  ∧ (∀ code body, cat pid = .response code body → code ≠ 200 →
      get_product cat pid = none)
  ∧ (get_product cat pid = none → (get_products_batch cat ids).lookup pid = none)
  ∧ (∀ p, pid ∈ ids → get_product cat pid = some p →
      (get_products_batch cat ids).lookup pid = some p) := by
  refine ⟨fun h => ?_, fun h => ?_, fun code body h hne => ?_, fun h => ?_,
    fun p hmem hp => ?_⟩
  · rw [get_product, h]
  · rw [get_product, h]
  · rw [get_product, h]
    simp [hne]
  · exact batch_lookup_none cat pid h ids
  · rw [batch_lookup_mem cat pid ids hmem, hp]

/-- Witness for C8 at concrete inputs: a timeout and a 404 both come
back as `none`, and the timed-out id is absent from the batch result. -/
theorem get_product_swallows_failures_witness :
    get_product catDown 0 = none
  ∧ (get_products_batch catDown [0, 1]).lookup 0 = none
  ∧ get_product catBulk 2 = none :=
  ⟨(get_product_swallows_failures catDown 0 [0, 1]).1 rfl,
   (get_product_swallows_failures catDown 0 [0, 1]).2.2.2.1
     ((get_product_swallows_failures catDown 0 [0, 1]).1 rfl),
   (get_product_swallows_failures catBulk 2 []).2.2.1 404
     ⟨"", 0, 0, false, none, []⟩ rfl (by decide)⟩

theorem length_filterMap_add {α β γ : Type} (f : α → Option β) (g : α → Option γ)
    (l : List α) (h : ∀ a ∈ l, (f a).isSome = (g a).isNone) :
    (l.filterMap f).length + (l.filterMap g).length = l.length := by
  induction l with
  | nil => rfl
  | cons a l ih =>
    have ha := h a (List.mem_cons_self a l)
    have ihl := ih fun b hb => h b (List.mem_cons_of_mem a hb)
    cases hf : f a <;> cases hg : g a
    · rw [hf, hg] at ha; exact Bool.noConfusion ha
    · simp only [List.filterMap_cons, hf, hg, List.length_cons]; omega
    · simp only [List.filterMap_cons, hf, hg, List.length_cons]; omega
    · rw [hf, hg] at ha; exact Bool.noConfusion ha

theorem validate_loop_spec (cat : Catalog) (products : List (ProductId × Product)) :
    ∀ items' : List (ProductId × Nat),
      (∀ pq ∈ items', products.lookup pq.1 = get_product cat pq.1) →
      validate_products_loop products items' =
        (items'.filterMap fun pq => classify_valid cat pq.1 pq.2,
         items'.filterMap fun pq =>
           (classify_reason cat pq.1 pq.2).map fun r => (⟨pq.1, r⟩ : InvalidItem)) := by
  intro items'
  induction items' with
  | nil => intro _; rfl
  | cons pq rest ih =>
    intro h
    obtain ⟨pid, quantity⟩ := pq
    have hpid := h (pid, quantity) (List.mem_cons_self _ _)
    have ihr := ih fun b hb => h b (List.mem_cons_of_mem _ hb)
    simp only [validate_products_loop, ihr, hpid, List.filterMap_cons]
    cases hp : get_product cat pid with
    | none => simp [classify_valid, classify_reason, hp]
    | some p =>
      by_cases hact : p.is_active
      · by_cases hstock : p.stock < quantity
        · simp [classify_valid, classify_reason, hp, hact, hstock]
        · simp [classify_valid, classify_reason, hp, hact, hstock]
      · simp [classify_valid, classify_reason, hp, hact]

theorem validate_products_eq (cat : Catalog) (items : List (ProductId × Nat)) :
    validate_products cat items =
      (items.filterMap fun pq => classify_valid cat pq.1 pq.2,
       items.filterMap fun pq =>
         (classify_reason cat pq.1 pq.2).map fun r => (⟨pq.1, r⟩ : InvalidItem)) := by
  refine validate_loop_spec cat _ items fun pq hpq => ?_
  exact batch_lookup_mem cat pq.1 (items.map Prod.fst)
    (List.mem_map_of_mem Prod.fst hpq)

theorem classify_valid_isSome_eq (cat : Catalog) (pid : ProductId) (quantity : Nat) :
    (classify_valid cat pid quantity).isSome =
      (classify_reason cat pid quantity).isNone := by
  cases hp : get_product cat pid with
  | none => simp [classify_valid, classify_reason, hp]
  | some p =>
    by_cases hact : p.is_active
    · by_cases hstock : p.stock < quantity
      · simp [classify_valid, classify_reason, hp, hact, hstock]
      · simp [classify_valid, classify_reason, hp, hact, hstock]
    · simp [classify_valid, classify_reason, hp, hact]

/-- C7: `validate_products` classifies every input item as exactly one
of not-found / inactive / insufficient-stock / valid, in that
precedence order — an item absent from the batch fetch is reported
"Product not found"; otherwise an inactive product is reported
"Product is not active" (even when also understocked); otherwise a
product with stock strictly below the requested quantity is reported
with the insufficient-stock reason; otherwise the item is valid. -/
theorem validate_products_classification (cat : Catalog)
    (items : List (ProductId × Nat)) :
    validate_products cat items =
      (items.filterMap fun pq => classify_valid cat pq.1 pq.2,
       items.filterMap fun pq =>
         (classify_reason cat pq.1 pq.2).map fun r => (⟨pq.1, r⟩ : InvalidItem))
  ∧ (validate_products cat items).1.length +
      (validate_products cat items).2.length = items.length
  ∧ (∀ pid quantity, (pid, quantity) ∈ items → get_product cat pid = none →
      (⟨pid, "Product not found"⟩ : InvalidItem) ∈ (validate_products cat items).2)
  ∧ (∀ pid quantity p, (pid, quantity) ∈ items → get_product cat pid = some p →
      p.is_active = false →
      (⟨pid, "Product is not active"⟩ : InvalidItem) ∈ (validate_products cat items).2)
  ∧ (∀ pid quantity p, (pid, quantity) ∈ items → get_product cat pid = some p →
      p.is_active = true → p.stock < quantity →
      (⟨pid, "Insufficient stock (available: " ++ toString p.stock ++ ")"⟩ : InvalidItem)
        ∈ (validate_products cat items).2)
  ∧ (∀ pid quantity p, (pid, quantity) ∈ items → get_product cat pid = some p →
      p.is_active = true → quantity ≤ p.stock →
      (⟨pid, quantity, p.price⟩ : ValidItem) ∈ (validate_products cat items).1) := by
  have heq := validate_products_eq cat items
  refine ⟨heq, ?_, ?_, ?_, ?_, ?_⟩
  · rw [heq]
    refine length_filterMap_add _ _ items fun pq _ => ?_
    rw [classify_valid_isSome_eq cat pq.1 pq.2]
    cases classify_reason cat pq.1 pq.2 <;> rfl
  · intro pid quantity hmem hp
    rw [heq]
    exact List.mem_filterMap.mpr ⟨(pid, quantity), hmem, by
      simp [classify_reason, hp]⟩
  · intro pid quantity p hmem hp hact
    rw [heq]
    exact List.mem_filterMap.mpr ⟨(pid, quantity), hmem, by
      simp [classify_reason, hp, hact]⟩
  · intro pid quantity p hmem hp hact hstock
    rw [heq]
    exact List.mem_filterMap.mpr ⟨(pid, quantity), hmem, by
      simp [classify_reason, hp, hact, hstock]⟩
  · intro pid quantity p hmem hp hact hstock
    rw [heq]
    exact List.mem_filterMap.mpr ⟨(pid, quantity), hmem, by
      simp [classify_valid, hp, hact, Nat.not_lt.mpr hstock]⟩

/-- Witness for C7: against a catalog where product 5 is inactive and
understocked and product 6 is unreachable, the emitted reasons follow
the precedence order — product 5 is reported "not active", not
"insufficient stock". -/
theorem validate_products_classification_witness :
    (⟨5, "Product is not active"⟩ : InvalidItem)
      ∈ (validate_products catInactive5 [(5, 100), (6, 1)]).2
  ∧ (⟨6, "Product not found"⟩ : InvalidItem)
      ∈ (validate_products catInactive5 [(5, 100), (6, 1)]).2 :=
  ⟨(validate_products_classification catInactive5 [(5, 100), (6, 1)]).2.2.2.1
      5 100 ⟨"P", 10, 9, false, some true, []⟩ (by decide) rfl rfl,
   (validate_products_classification catInactive5 [(5, 100), (6, 1)]).2.2.1
      6 1 (by decide) rfl⟩

/-- C1: `add_item` first consults a fresh snapshot: it fails with
`productNotFound` when the snapshot is absent and `productUnavailable`
when the product is inactive; otherwise, with `new_quantity` the
requested quantity plus any quantity already stored in the cart for
that product, it fails with `insufficientStock` exactly when the
snapshot's stock is strictly below `new_quantity`, and succeeds
otherwise. -/
theorem service_add_item_spec (cat : Catalog) (s : Store) (uid : UserId)
    (req : CartItemAdd) :
    (get_product cat req.product_id = none →
      (service_add_item cat s uid req).2 = .error .productNotFound)
  ∧ (∀ p, get_product cat req.product_id = some p → p.is_active = false →
      (service_add_item cat s uid req).2 = .error .productUnavailable)
  ∧ (∀ p, get_product cat req.product_id = some p → p.is_active = true →
      ((service_add_item cat s uid req).2 = .error (.insufficientStock p.stock) ↔
        p.stock < req.quantity + existing_quantity s uid req.product_id))
  ∧ (∀ p, get_product cat req.product_id = some p → p.is_active = true →
      ¬(p.stock < req.quantity + existing_quantity s uid req.product_id) →
      ∃ r, (service_add_item cat s uid req).2 = .ok r) := by
  cases hgc : get_or_create_cart s uid with
  | mk cart s1 =>
  have hexist : existing_quantity s uid req.product_id =
      (match get_cart_item s1 cart.id req.product_id with
       | some it => it.quantity | none => 0) := by
    rw [existing_quantity, hgc]
  refine ⟨fun h => ?_, fun p hp hact => ?_, fun p hp hact => ?_,
    fun p hp hact hstock => ?_⟩
  · simp [service_add_item, hgc, h]
  · simp [service_add_item, hgc, hp, hact]
  · rw [hexist]
    by_cases hstock : p.stock < req.quantity +
        (match get_cart_item s1 cart.id req.product_id with
         | some it => it.quantity | none => 0)
    · simp [service_add_item, hgc, hp, hact, hstock]
    · cases hsg : service_get_cart cat
        (repo_add_item s1 cart.id req.product_id req.quantity p.price) uid with
      | mk s3 resp =>
        simp [service_add_item, hgc, hp, hact, hstock, hsg]
  · rw [hexist] at hstock
    cases hsg : service_get_cart cat
      (repo_add_item s1 cart.id req.product_id req.quantity p.price) uid with
    | mk s3 resp =>
      exact ⟨resp, by simp [service_add_item, hgc, hp, hact, hstock, hsg]⟩

/-- Witness for C1, the stock-5 scenario: with stock 5 and an empty
cart, adding 6 fails with insufficient stock, adding 5 succeeds, and a
subsequent add of 1 fails. -/
theorem service_add_item_spec_witness :
    (service_add_item catStock5 emptyStore 0 ⟨7, 6⟩).2
      = .error (.insufficientStock 5)
  ∧ (service_add_item catStock5 emptyStore 0 ⟨7, 5⟩).2.isOk = true
  ∧ (service_add_item catStock5
      (service_add_item catStock5 emptyStore 0 ⟨7, 5⟩).1 0 ⟨7, 1⟩).2
      = .error (.insufficientStock 5) := by
  refine ⟨?_, ?_, ?_⟩
  · exact ((service_add_item_spec catStock5 emptyStore 0 ⟨7, 6⟩).2.2.1
      ⟨"Widget", 10, 5, true, some true, []⟩ rfl rfl).mpr (by decide)
  · obtain ⟨r, hr⟩ := (service_add_item_spec catStock5 emptyStore 0 ⟨7, 5⟩).2.2.2
      ⟨"Widget", 10, 5, true, some true, []⟩ rfl rfl (by decide)
    rw [hr]; rfl
  · exact ((service_add_item_spec catStock5
      (service_add_item catStock5 emptyStore 0 ⟨7, 5⟩).1 0 ⟨7, 1⟩).2.2.1
      ⟨"Widget", 10, 5, true, some true, []⟩ rfl rfl).mpr (by decide)

theorem count_pair_le_one_of_unique (items : List CartItem)
    (h : UniquePerPair items) (c : Nat) (p : ProductId) :
    count_pair items c p ≤ 1 := by
  induction items with
  | nil => exact Nat.zero_le 1
  | cons it rest ih =>
    unfold UniquePerPair at h
    rw [List.pairwise_cons] at h
    obtain ⟨hhead, htail⟩ := h
    unfold count_pair
    rw [List.filter_cons]
    by_cases hm : (it.cart_id == c && it.product_id == p) = true
    · simp only [hm, if_pos]
      have hrest : rest.filter (fun b => b.cart_id == c && b.product_id == p) = [] := by
        refine List.filter_eq_nil_iff.mpr fun b hb => ?_
        intro hbm
        rcases hhead b hb with hc | hp
        · exact hc (by
            have h1 : it.cart_id = c := by simpa using (Bool.and_elim_left hm)
            have h2 : b.cart_id = c := by simpa using (Bool.and_elim_left hbm)
            rw [h1, h2])
        · exact hp (by
            have h1 : it.product_id = p := by simpa using (Bool.and_elim_right hm)
            have h2 : b.product_id = p := by simpa using (Bool.and_elim_right hbm)
            rw [h1, h2])
      simp [hrest]
    · simp only [hm]
      simpa [count_pair] using ih htail

theorem bump_first_item_keys (cid : Nat) (pid : ProductId)
    (quantity : Nat) (price : ℚ) :
    ∀ l : List CartItem,
      (bump_first_item l cid pid quantity price).map
          (fun it => (it.cart_id, it.product_id)) =
        l.map fun it => (it.cart_id, it.product_id) := by
  intro l
  induction l with
  | nil => rfl
  | cons it rest ih =>
    rw [bump_first_item]
    by_cases hm : (it.cart_id == cid && it.product_id == pid) = true
    · simp [hm]
    · simp [hm, ih]

theorem unique_iff_keys (items : List CartItem) :
    UniquePerPair items ↔
      (items.map fun it => (it.cart_id, it.product_id)).Pairwise
        fun a b => a.1 ≠ b.1 ∨ a.2 ≠ b.2 := by
  rw [UniquePerPair, List.pairwise_map]

theorem bump_first_item_find (cid : Nat) (pid : ProductId)
    (quantity : Nat) (price : ℚ) :
    ∀ l : List CartItem, ∀ it : CartItem,
      (l.find? fun b => b.cart_id == cid && b.product_id == pid) = some it →
      ((bump_first_item l cid pid quantity price).find?
          fun b => b.cart_id == cid && b.product_id == pid) =
        some { it with quantity := it.quantity + quantity, price := price } := by
  intro l
  induction l with
  | nil => intro it h; exact absurd h (by simp)
  | cons a rest ih =>
    intro it h
    by_cases hm : (a.cart_id == cid && a.product_id == pid) = true
    · rw [@List.find?_cons_of_pos CartItem
        (fun b => b.cart_id == cid && b.product_id == pid) a rest hm] at h
      injection h with h
      subst h
      simp only [bump_first_item, hm, if_true]
      exact List.find?_cons_of_pos rest hm
    · rw [@List.find?_cons_of_neg CartItem
        (fun b => b.cart_id == cid && b.product_id == pid) a rest hm] at h
      simp only [bump_first_item, hm, Bool.false_eq_true, if_false]
      rw [@List.find?_cons_of_neg CartItem
        (fun b => b.cart_id == cid && b.product_id == pid) a
        (bump_first_item rest cid pid quantity price) hm]
      exact ih it h

/-- C2: the store's `add_item` keeps at most one line item per
(cart_id, product_id): when a row for the product already exists it
increments that row's quantity by the given amount and overwrites its
price (last-write-wins), and otherwise it appends a new row. -/
theorem repo_add_item_unique (s : Store) (cid : Nat) (pid : ProductId)
    (quantity : Nat) (price : ℚ) (h : UniquePerPair s.items) :
    UniquePerPair (repo_add_item s cid pid quantity price).items
  ∧ (∀ c p, count_pair (repo_add_item s cid pid quantity price).items c p ≤ 1)
  ∧ (∀ it, get_cart_item s cid pid = some it →
      get_cart_item (repo_add_item s cid pid quantity price) cid pid =
        some { it with quantity := it.quantity + quantity, price := price })
  ∧ (get_cart_item s cid pid = none →
      (repo_add_item s cid pid quantity price).items =
        s.items ++ [⟨s.next_id, cid, pid, quantity, price⟩]) := by
  have huniq : UniquePerPair (repo_add_item s cid pid quantity price).items := by
    rw [repo_add_item]
    cases hg : get_cart_item s cid pid with
    | some it =>
      rw [unique_iff_keys]
      rw [bump_first_item_keys]
      exact (unique_iff_keys s.items).mp h
    | none =>
      rw [UniquePerPair, List.pairwise_append]
      refine ⟨h, List.pairwise_singleton _ _, fun a ha b hb => ?_⟩
      rw [List.mem_singleton] at hb
      subst hb
      have hnm := List.find?_eq_none.mp hg a ha
      rw [Bool.and_eq_true] at hnm
      push_neg at hnm
      by_cases hc : (a.cart_id == cid) = true
      · exact Or.inr fun hp => by simp [hp] at hnm; exact absurd hc (by simp [hnm])
      · exact Or.inl (by simpa using hc)
  refine ⟨huniq, fun c p => count_pair_le_one_of_unique _ huniq c p,
    fun it hit => ?_, fun hnone => ?_⟩
  · rw [repo_add_item, hit]
    exact bump_first_item_find cid pid quantity price s.items it hit
  · rw [repo_add_item, hnone]

/-- Witness for C2, the uniqueness scenario: adding product 1 with
quantity 2 and then quantity 3 yields exactly one line item, with
quantity 5, never two rows. -/
theorem repo_add_item_unique_witness :
    get_cart_item (repo_add_item (repo_add_item storeOneCart 0 1 2 10) 0 1 3 10) 0 1
      = some ⟨1, 0, 1, 5, 10⟩
  ∧ (repo_add_item (repo_add_item storeOneCart 0 1 2 10) 0 1 3 10).items.length = 1
  ∧ UniquePerPair (repo_add_item (repo_add_item storeOneCart 0 1 2 10) 0 1 3 10).items := by
  refine ⟨?_, by decide, (repo_add_item_unique
    (repo_add_item storeOneCart 0 1 2 10) 0 1 3 10 (by decide)).1⟩
  exact (repo_add_item_unique (repo_add_item storeOneCart 0 1 2 10) 0 1 3 10
    (by decide)).2.2.1 ⟨1, 0, 1, 2, 10⟩ rfl

theorem length_filter_add_length_filter_not {α : Type} (p : α → Bool)
    (l : List α) :
    (l.filter p).length + (l.filter fun a => !p a).length = l.length := by
  induction l with
  | nil => rfl
  | cons a l ih =>
    by_cases hp : p a = true
    · simp only [List.filter_cons, hp, Bool.not_true, Bool.false_eq_true,
        if_true, if_false, List.length_cons]
      omega
    · rw [Bool.not_eq_true] at hp
      simp only [List.filter_cons, hp, Bool.not_false, Bool.false_eq_true,
        if_true, if_false, List.length_cons]
      omega

theorem length_filterMap_eq_length_filter {α β : Type} (f : α → Option β)
    (p : α → Bool) (l : List α) (h : ∀ a ∈ l, (f a).isSome = p a) :
    (l.filterMap f).length = (l.filter p).length := by
  induction l with
  | nil => rfl
  | cons a l ih =>
    have ha := h a (List.mem_cons_self a l)
    have ihl := ih fun b hb => h b (List.mem_cons_of_mem a hb)
    cases hf : f a with
    | none =>
      rw [hf] at ha
      simp only [List.filter_cons, ← ha, List.filterMap_cons, hf,
        Option.isSome_none, Bool.false_eq_true, if_false]
      exact ihl
    | some b =>
      rw [hf] at ha
      simp only [List.filter_cons, ← ha, List.filterMap_cons, hf,
        Option.isSome_some, if_true, List.length_cons]
      omega

theorem bulk_loop_spec (cat : Catalog) (cid : Nat) :
    ∀ (reqs : List CartItemAdd) (s : Store),
      (bulk_loop cat cid reqs s).2.1 = (reqs.filter (bulk_ok cat)).length
    ∧ (bulk_loop cat cid reqs s).2.2.1 =
        (reqs.filter fun r => !bulk_ok cat r).length
    ∧ (bulk_loop cat cid reqs s).2.2.2 = reqs.filterMap (bulk_error_msg cat)
    ∧ (bulk_loop cat cid reqs s).1 =
        (reqs.filter (bulk_ok cat)).foldl
          (fun st r => repo_add_item st cid r.product_id r.quantity
            (bulk_price cat r)) s := by
  intro reqs
  induction reqs with
  | nil => intro s; exact ⟨rfl, rfl, rfl, rfl⟩
  | cons r rest ih =>
    intro s
    cases hp : get_product cat r.product_id with
    | none =>
      have hok : bulk_ok cat r = false := by simp [bulk_ok, hp]
      have hmsg : bulk_error_msg cat r =
          some ("Product " ++ toString r.product_id ++ " not available") := by
        simp [bulk_error_msg, hp]
      obtain ⟨ih1, ih2, ih3, ih4⟩ := ih s
      refine ⟨?_, ?_, ?_, ?_⟩ <;>
        simp only [bulk_loop, hp, List.filter_cons, List.filterMap_cons,
          hok, hmsg, Bool.not_false, Bool.false_eq_true, if_false, if_true,
          ih1, ih2, ih3, ih4, List.length_cons, List.singleton_append] <;>
        omega
    | some p =>
      by_cases hact : p.is_active = true
      · by_cases hstock : p.stock < r.quantity
        · have hok : bulk_ok cat r = false := by
            simp [bulk_ok, hp, hact, hstock]
          have hmsg : bulk_error_msg cat r =
              some ("Product " ++ toString r.product_id ++ " insufficient stock") := by
            simp [bulk_error_msg, hp, hact, hstock]
          obtain ⟨ih1, ih2, ih3, ih4⟩ := ih s
          refine ⟨?_, ?_, ?_, ?_⟩ <;>
            simp only [bulk_loop, hp, hact, hstock, Bool.not_true,
              Bool.false_eq_true, if_false, if_true, List.filter_cons,
              List.filterMap_cons, hok, hmsg, Bool.not_false,
              ih1, ih2, ih3, ih4, List.length_cons, List.singleton_append] <;>
            omega
        · have hok : bulk_ok cat r = true := by
            simp [bulk_ok, hp, hact, hstock]
          have hmsg : bulk_error_msg cat r = none := by
            simp [bulk_error_msg, hp, hact, hstock]
          have hprice : bulk_price cat r = p.price := by
            simp [bulk_price, hp]
          obtain ⟨ih1, ih2, ih3, ih4⟩ :=
            ih (repo_add_item s cid r.product_id r.quantity p.price)
          refine ⟨?_, ?_, ?_, ?_⟩ <;>
            simp only [bulk_loop, hp, hact, hstock, Bool.not_true,
              Bool.false_eq_true, if_false, if_true, List.filter_cons,
              List.filterMap_cons, hok, hmsg, Bool.not_false, hprice,
              ih1, ih2, ih3, ih4, List.length_cons, List.nil_append,
              List.foldl_cons] <;>
            omega
      · rw [Bool.not_eq_true] at hact
        have hok : bulk_ok cat r = false := by simp [bulk_ok, hp, hact]
        have hmsg : bulk_error_msg cat r =
            some ("Product " ++ toString r.product_id ++ " not available") := by
          simp [bulk_error_msg, hp, hact]
        obtain ⟨ih1, ih2, ih3, ih4⟩ := ih s
        refine ⟨?_, ?_, ?_, ?_⟩ <;>
          simp only [bulk_loop, hp, hact, Bool.not_false, Bool.true_eq_false,
            Bool.false_eq_true, if_false, if_true, List.filter_cons,
            List.filterMap_cons, hok, hmsg,
            ih1, ih2, ih3, ih4, List.length_cons, List.singleton_append] <;>
          omega

/-- C5: `add_items_bulk` validates and adds each requested item
independently — the returned triple is (number of passing items,
number of failing items, one error string per failing item in order),
successes plus failures exhaust the request list, and the final store
is the start store with exactly the passing items added in order; a
failing item never aborts the batch.  The concrete scenario: of 3
items where item 2 references a nonexistent product, items 1 and 3 are
persisted and the one error string names product 2. -/
theorem service_add_items_bulk_spec (cat : Catalog) (s : Store) (uid : UserId)
    (reqs : List CartItemAdd) :
    (service_add_items_bulk cat s uid reqs).2.1 =
      (reqs.filter (bulk_ok cat)).length
  ∧ (service_add_items_bulk cat s uid reqs).2.2.1 =
      (reqs.filter fun r => !bulk_ok cat r).length
  ∧ (service_add_items_bulk cat s uid reqs).2.1 +
      (service_add_items_bulk cat s uid reqs).2.2.1 = reqs.length
  ∧ (service_add_items_bulk cat s uid reqs).2.2.2 =
      reqs.filterMap (bulk_error_msg cat)
  ∧ (service_add_items_bulk cat s uid reqs).2.2.2.length =
      (service_add_items_bulk cat s uid reqs).2.2.1
  ∧ (service_add_items_bulk cat s uid reqs).1 =
      (reqs.filter (bulk_ok cat)).foldl
        (fun st r => repo_add_item st (get_or_create_cart s uid).1.id
          r.product_id r.quantity (bulk_price cat r))
        (get_or_create_cart s uid).2
  ∧ (service_add_items_bulk catBulk emptyStore 0 [⟨1, 1⟩, ⟨2, 1⟩, ⟨3, 1⟩]).2 =
      (2, 1, ["Product 2 not available"])
  ∧ (service_add_items_bulk catBulk emptyStore 0 [⟨1, 1⟩, ⟨2, 1⟩, ⟨3, 1⟩]).1.items =
      [⟨1, 0, 1, 1, 3⟩, ⟨2, 0, 3, 1, 4⟩] := by
  cases hgc : get_or_create_cart s uid with
  | mk cart s1 =>
    obtain ⟨h1, h2, h3, h4⟩ := bulk_loop_spec cat cart.id reqs s1
    have hsvc : service_add_items_bulk cat s uid reqs = bulk_loop cat cart.id reqs s1 := by
      rw [service_add_items_bulk, hgc]
    rw [hsvc]
    refine ⟨h1, h2, ?_, h3, ?_, ?_, by decide, by decide⟩
    · rw [h1, h2]
      exact length_filter_add_length_filter_not (bulk_ok cat) reqs
    · rw [h2, h3]
      refine length_filterMap_eq_length_filter _ _ reqs fun r _ => ?_
      cases hp : get_product cat r.product_id with
      | none => simp [bulk_error_msg, bulk_ok, hp]
      | some p =>
        by_cases hact : p.is_active = true
        · by_cases hstock : p.stock < r.quantity
          · simp [bulk_error_msg, bulk_ok, hp, hact, hstock]
          · simp [bulk_error_msg, bulk_ok, hp, hact, hstock]
        · rw [Bool.not_eq_true] at hact
          simp [bulk_error_msg, bulk_ok, hp, hact]
    · rw [h4]

theorem enrich_cart_items_length (cat : Catalog) (l : List CartItem) :
    (enrich_cart_items cat l).length = l.length := by
  rw [enrich_cart_items]
  by_cases h : l.isEmpty
  · rw [if_pos h, List.isEmpty_iff.mp h]; rfl
  · rw [if_neg h, List.length_map]

/-- C6 counterexample: with the catalog unreachable, the single cart
item's product is absent from the batch result, yet `get_cart` reports
`product_in_stock` as `some false` (the Python value `False`), not
`none` — so the claim that all three display fields are null is false
for the in-stock flag. -/
theorem get_cart_enrichment_counterexample :
    (service_get_cart catDown storeOneItem 0).2.items.map
        (fun r => r.product_in_stock) = [some false]
  ∧ some false ≠ (none : Option Bool)
  ∧ (service_get_cart catDown storeOneItem 0).2.items.map
        (fun r => (r.product_title, r.product_image)) = [(none, none)] := by
  refine ⟨by decide, by decide, by decide⟩

/-- C6 (amended): every line item of `get_cart`'s response derives its
display fields from the freshly fetched snapshot — title from the
snapshot, primary image the url of the first image flagged primary,
else the first image's url, else none, and the in-stock flag the
snapshot's `in_stock` value (defaulted to false when the key is
absent); for an item whose product is absent from the batch result the
title and image are null and the in-stock flag is `some false` (not
null), while the line item itself stays in the returned cart. -/
theorem get_cart_enrichment_spec (cat : Catalog) (s : Store) (uid : UserId) :
    (service_get_cart cat s uid).2.items.length =
      (cart_items (get_or_create_cart s uid).2 (get_or_create_cart s uid).1.id).length
  ∧ ∀ it ∈ cart_items (get_or_create_cart s uid).2 (get_or_create_cart s uid).1.id,
      ∃ r ∈ (service_get_cart cat s uid).2.items,
        r.id = it.id ∧ r.product_id = it.product_id ∧
        r.quantity = it.quantity ∧ r.price = it.price
      ∧ (get_product cat it.product_id = none →
          r.product_title = none ∧ r.product_image = none ∧
          r.product_in_stock = some false)
      ∧ (∀ p, get_product cat it.product_id = some p →
          r.product_title = some p.title
        ∧ r.product_in_stock = some (p.in_stock.getD false)
        ∧ (∀ img, p.images.find? (fun i => i.is_primary) = some img →
            r.product_image = some img.url)
        ∧ (p.images.find? (fun i => i.is_primary) = none →
            r.product_image = p.images.head?.map fun i => i.url)) := by
  cases hgc : get_or_create_cart s uid with
  | mk cart s1 =>
    have hresp : (service_get_cart cat s uid).2.items =
        enrich_cart_items cat (cart_items s1 cart.id) := by
      rw [service_get_cart, hgc]
    refine ⟨by rw [hresp]; exact enrich_cart_items_length cat _, ?_⟩
    intro it hit
    have hne : ¬(cart_items s1 cart.id).isEmpty = true := by
      intro hemp
      rw [List.isEmpty_iff.mp hemp] at hit
      exact absurd hit (List.not_mem_nil it)
    have henr : (service_get_cart cat s uid).2.items =
        (cart_items s1 cart.id).map
          (enrich_cart_item (get_products_batch cat
            ((cart_items s1 cart.id).map fun b => b.product_id))) := by
      rw [hresp, enrich_cart_items, if_neg hne]
    have hlk : (get_products_batch cat
        ((cart_items s1 cart.id).map fun b => b.product_id)).lookup it.product_id =
        get_product cat it.product_id :=
      batch_lookup_mem cat it.product_id _
        (List.mem_map_of_mem (fun b => b.product_id) hit)
    refine ⟨enrich_cart_item (get_products_batch cat
        ((cart_items s1 cart.id).map fun b => b.product_id)) it,
      by rw [henr]; exact List.mem_map_of_mem _ hit, ?_⟩
    cases hgp : get_product cat it.product_id with
    | none =>
      rw [hgp] at hlk
      refine ⟨?_, ?_, ?_, ?_, fun _ => ⟨?_, ?_, ?_⟩, fun p hp => absurd hp (by simp)⟩ <;>
        simp [enrich_cart_item, hlk]
    | some p =>
      rw [hgp] at hlk
      refine ⟨by simp [enrich_cart_item, hlk], by simp [enrich_cart_item, hlk],
        by simp [enrich_cart_item, hlk], by simp [enrich_cart_item, hlk],
        fun hc => absurd hc (by simp), fun q hq => ?_⟩
      injection hq with hq
      subst hq
      refine ⟨by simp [enrich_cart_item, hlk], by simp [enrich_cart_item, hlk],
        fun img himg => ?_, fun hnone => ?_⟩
      · simp [enrich_cart_item, hlk, primary_image, himg]
      · simp [enrich_cart_item, hlk, primary_image, hnone]

/-- Witness for C6's amended theorem at a concrete input: a present
product supplies its title and in-stock flag, and the absent-product
case of the same theorem is exercised by the counterexample store. -/
theorem get_cart_enrichment_spec_witness :
    ∃ r ∈ (service_get_cart catStock5 storeStock5Item 0).2.items,
      r.id = 1 ∧ r.product_id = 7 ∧ r.quantity = 2 ∧ r.price = 10
    ∧ r.product_title = some "Widget" ∧ r.product_in_stock = some true := by
  obtain ⟨r, hr, h1, h2, h3, h4, _, hsome⟩ :=
    (get_cart_enrichment_spec catStock5 storeStock5Item 0).2
      ⟨1, 0, 7, 2, 10⟩ (by decide)
  obtain ⟨ht, hs, _, _⟩ := hsome ⟨"Widget", 10, 5, true, some true, []⟩ rfl
  exact ⟨r, hr, h1, h2, h3, h4, ht, hs⟩

theorem filterMap_congr_mem {α β : Type} (f g : α → Option β) (l : List α)
    (h : ∀ a ∈ l, f a = g a) : l.filterMap f = l.filterMap g := by
  induction l with
  | nil => rfl
  | cons a l ih =>
    rw [List.filterMap_cons, List.filterMap_cons, h a (List.mem_cons_self a l),
      ih fun b hb => h b (List.mem_cons_of_mem a hb)]

theorem filterMap_guard_eq_map_filter {α β : Type} (p : α → Bool) (g : α → β)
    (l : List α) :
    l.filterMap (fun a => if p a then some (g a) else none) =
      (l.filter p).map g := by
  induction l with
  | nil => rfl
  | cons a l ih =>
    by_cases hp : p a = true
    · simp only [List.filterMap_cons, List.filter_cons, hp, if_true,
        List.map_cons, ih]
    · rw [Bool.not_eq_true] at hp
      simp only [List.filterMap_cons, List.filter_cons, hp,
        Bool.false_eq_true, if_false, ih]

theorem classify_reason_isSome (cat : Catalog) (pid : ProductId)
    (quantity : Nat) :
    (classify_reason cat pid quantity).isSome = failsValidation cat pid quantity := by
  cases hp : get_product cat pid with
  | none => simp [classify_reason, failsValidation, hp]
  | some p =>
    by_cases hact : p.is_active
    · by_cases hstock : p.stock < quantity
      · simp [classify_reason, failsValidation, hp, hact, hstock]
      · simp [classify_reason, failsValidation, hp, hact, hstock]
    · simp [classify_reason, failsValidation, hp, hact]

theorem enrich_cart_item_core (products : List (ProductId × Product))
    (it : CartItem) :
    (enrich_cart_item products it).product_id = it.product_id
  ∧ (enrich_cart_item products it).quantity = it.quantity
  ∧ (enrich_cart_item products it).price = it.price := by
  cases h : products.lookup it.product_id <;> simp [enrich_cart_item, h]

theorem enrich_cart_items_core (cat : Catalog) (l : List CartItem) :
    (enrich_cart_items cat l).map (fun r => (r.product_id, r.quantity, r.price)) =
      l.map fun it => (it.product_id, it.quantity, it.price) := by
  rw [enrich_cart_items]
  by_cases h : l.isEmpty
  · rw [if_pos h, List.isEmpty_iff.mp h]; rfl
  · rw [if_neg h, List.map_map]
    refine List.map_congr_left fun it _ => ?_
    obtain ⟨h1, h2, h3⟩ := enrich_cart_item_core
      (get_products_batch cat (l.map fun b => b.product_id)) it
    simp [Function.comp, h1, h2, h3]

theorem invalid_ids_eq_filter (cat : Catalog) (l : List CartItem) :
    ((validate_products cat (l.map fun it => (it.product_id, it.quantity))).2.map
        fun item => item.product_id) =
      ((l.filter fun it => failsValidation cat it.product_id it.quantity).map
        fun it => it.product_id) := by
  rw [validate_products_eq, List.map_filterMap, List.filterMap_map]
  rw [filterMap_congr_mem _
    (fun it : CartItem =>
      if failsValidation cat it.product_id it.quantity
      then some it.product_id else none) l ?_]
  · exact filterMap_guard_eq_map_filter _ _ l
  · intro it _
    simp only [Function.comp_apply]
    rw [← classify_reason_isSome]
    cases hr : classify_reason cat it.product_id it.quantity <;> simp [hr]

/-- C3: `prepare_checkout` is read-only — for a user with a non-empty
cart it leaves the store (hence every line item's quantity and price)
unchanged, succeeds, reports `available_for_checkout = true` exactly
when no item fails validation, lists the product id of every failing
item in `unavailable_items`, and echoes every line item's product,
quantity and price unchanged in the response. -/
theorem prepare_checkout_spec (cat : Catalog) (s : Store) (uid : UserId)
    (shipping : String) (billing : Option String) (cart : Cart)
    (hcart : get_cart_by_user_id s uid = some cart)
    (hne : cart_items s cart.id ≠ []) :
    (service_prepare_checkout cat s uid shipping billing).1 = s
  ∧ ∃ resp, (service_prepare_checkout cat s uid shipping billing).2 = .ok resp
    ∧ resp.unavailable_items =
        (((cart_items s cart.id).filter fun it =>
          failsValidation cat it.product_id it.quantity).map fun it => it.product_id)
    ∧ (resp.available_for_checkout = true ↔
        ((cart_items s cart.id).filter fun it =>
          failsValidation cat it.product_id it.quantity) = [])
    ∧ resp.items.map (fun r => (r.product_id, r.quantity, r.price)) =
        ((cart_items s cart.id).map fun it => (it.product_id, it.quantity, it.price)) := by
  have hemp : ¬(cart_items s cart.id).isEmpty = true := by
    intro h; exact hne (List.isEmpty_iff.mp h)
  have hred : service_prepare_checkout cat s uid shipping billing =
      (s, .ok { cart_id := cart.id,
                total_items := total_items (cart_items s cart.id),
                subtotal := subtotal (cart_items s cart.id),
                shipping_address := shipping,
                billing_address := billing.getD shipping,
                items := enrich_cart_items cat (cart_items s cart.id),
                available_for_checkout :=
                  ((validate_products cat ((cart_items s cart.id).map fun it =>
                    (it.product_id, it.quantity))).2.map fun item =>
                      item.product_id).length == 0,
                unavailable_items :=
                  (validate_products cat ((cart_items s cart.id).map fun it =>
                    (it.product_id, it.quantity))).2.map fun item =>
                      item.product_id }) := by
    rw [service_prepare_checkout, hcart]
    simp only [if_neg hemp]
  refine ⟨by rw [hred], _, by rw [hred], ?_, ?_, ?_⟩
  · rw [invalid_ids_eq_filter]
  · have hlen := invalid_ids_eq_filter cat (cart_items s cart.id)
    constructor
    · intro h
      have : (((validate_products cat ((cart_items s cart.id).map fun it =>
          (it.product_id, it.quantity))).2.map fun item =>
            item.product_id).length == 0) = true := h
      rw [Nat.beq_eq_true_eq] at this
      rw [hlen, List.length_map] at this
      exact List.length_eq_zero.mp this
    · intro h
      show (((validate_products cat ((cart_items s cart.id).map fun it =>
          (it.product_id, it.quantity))).2.map fun item =>
            item.product_id).length == 0) = true
      rw [Nat.beq_eq_true_eq, hlen, List.length_map, h]
      rfl
  · exact enrich_cart_items_core cat (cart_items s cart.id)

/-- Witness for C3: a cart holding one item whose product has been
deactivated yields `available_for_checkout = false` with that product
id in `unavailable_items`, and the store contents are unchanged. -/
theorem prepare_checkout_spec_witness :
    (service_prepare_checkout catInactive5 storeTwoItems 0 "10 Main Street" none).1
      = storeTwoItems
  ∧ ∃ resp, (service_prepare_checkout catInactive5 storeTwoItems 0
        "10 Main Street" none).2 = .ok resp
    ∧ resp.available_for_checkout = false
    ∧ resp.unavailable_items = [5, 6] := by
  obtain ⟨hs, resp, hok, hunav, hava, _⟩ :=
    prepare_checkout_spec catInactive5 storeTwoItems 0 "10 Main Street" none
      ⟨0, 0⟩ rfl (by decide)
  refine ⟨hs, resp, hok, ?_, by rw [hunav]; rfl⟩
  have : ¬((storeTwoItems.items.filter fun it =>
      failsValidation catInactive5 it.product_id it.quantity) = []) := by decide
  cases hb : resp.available_for_checkout with
  | false => rfl
  | true => exact absurd (hava.mp hb) (by
      revert this
      simp only [cart_items]
      exact fun h => h)

theorem get_or_create_cart_items (s : Store) (uid : UserId) :
    (get_or_create_cart s uid).2.items = s.items := by
  rw [get_or_create_cart]
  cases get_cart_by_user_id s uid <;> simp [create_cart]

theorem service_get_cart_store (cat : Catalog) (s : Store) (uid : UserId) :
    (service_get_cart cat s uid).1 = (get_or_create_cart s uid).2 := by
  cases hgc : get_or_create_cart s uid with
  | mk cart s1 => rw [service_get_cart, hgc]

theorem find_set_first_price (iid : Nat) (price : ℚ) :
    ∀ (l : List CartItem) (jid : Nat),
      find_item_by_id (set_first_price_by_id l iid price) jid =
        if iid = jid then
          (find_item_by_id l iid).map fun it => { it with price := price }
        else find_item_by_id l jid := by
  intro l
  induction l with
  | nil =>
    intro jid
    by_cases h : iid = jid <;> simp [find_item_by_id, set_first_price_by_id, h]
  | cons a rest ih =>
    intro jid
    by_cases ha : (a.id == iid) = true
    · have ha' : a.id = iid := by simpa using ha
      simp only [set_first_price_by_id, ha, if_true]
      by_cases hj : iid = jid
      · subst hj
        rw [if_pos rfl]
        rw [find_item_by_id, @List.find?_cons_of_pos CartItem
          (fun it => it.id == iid) ({ a with price := price }) rest ha]
        rw [find_item_by_id, @List.find?_cons_of_pos CartItem
          (fun it => it.id == iid) a rest ha]
        rfl
      · rw [if_neg hj]
        have hne : ¬(a.id == jid) = true := by
          rw [ha']
          simpa using fun h => hj h
        rw [find_item_by_id, @List.find?_cons_of_neg CartItem
          (fun it => it.id == jid) ({ a with price := price }) rest hne]
        rw [find_item_by_id, @List.find?_cons_of_neg CartItem
          (fun it => it.id == jid) a rest hne]
    · simp only [set_first_price_by_id, ha, Bool.false_eq_true, if_false]
      by_cases hj : iid = jid
      · subst hj
        rw [if_pos rfl]
        rw [find_item_by_id, @List.find?_cons_of_neg CartItem
          (fun it => it.id == iid) a (set_first_price_by_id rest iid price) ha]
        rw [find_item_by_id, @List.find?_cons_of_neg CartItem
          (fun it => it.id == iid) a rest ha]
        have := ih iid
        rw [if_pos rfl] at this
        exact this
      · rw [if_neg hj]
        by_cases haj : (a.id == jid) = true
        · rw [find_item_by_id, @List.find?_cons_of_pos CartItem
            (fun it => it.id == jid) a (set_first_price_by_id rest iid price) haj]
          rw [find_item_by_id, @List.find?_cons_of_pos CartItem
            (fun it => it.id == jid) a rest haj]
        · rw [find_item_by_id, @List.find?_cons_of_neg CartItem
            (fun it => it.id == jid) a (set_first_price_by_id rest iid price) haj]
          rw [find_item_by_id, @List.find?_cons_of_neg CartItem
            (fun it => it.id == jid) a rest haj]
          have := ih jid
          rw [if_neg hj] at this
          exact this

theorem find_update_item_price (s : Store) (iid : Nat) (price : ℚ) (jid : Nat) :
    find_item_by_id (update_item_price s iid price).items jid =
      if iid = jid then
        (find_item_by_id s.items iid).map fun it => { it with price := price }
      else find_item_by_id s.items jid := by
  cases hf : find_item_by_id s.items iid with
  | none =>
    have hupd : update_item_price s iid price = s := by
      rw [update_item_price, hf]
    rw [hupd]
    by_cases hj : iid = jid
    · subst hj; simp [hf]
    · simp [hj]
  | some it =>
    have hupd : update_item_price s iid price =
        { s with items := set_first_price_by_id s.items iid price } := by
      rw [update_item_price, hf]
    rw [hupd, ← hf]
    exact find_set_first_price iid price s.items jid

theorem sync_loop_find_untouched (products : List (ProductId × Product)) :
    ∀ (L : List CartItem) (s : Store) (jid : Nat),
      (∀ b ∈ L, b.id ≠ jid) →
      find_item_by_id (sync_loop products L s).items jid =
        find_item_by_id s.items jid := by
  intro L
  induction L with
  | nil => intro s jid _; rfl
  | cons a rest ih =>
    intro s jid h
    have ha : a.id ≠ jid := h a (List.mem_cons_self a rest)
    have hrest := fun b hb => h b (List.mem_cons_of_mem a hb)
    cases hl : products.lookup a.product_id with
    | none =>
      simp only [sync_loop, hl]
      exact ih s jid hrest
    | some p =>
      by_cases hpr : p.price ≠ a.price
      · simp only [sync_loop, hl, if_pos hpr]
        rw [ih _ jid hrest, find_update_item_price, if_neg ha]
      · simp only [sync_loop, hl, if_neg hpr]
        exact ih s jid hrest

theorem find_item_of_mem :
    ∀ (items : List CartItem), (items.map fun b => b.id).Nodup →
      ∀ it ∈ items, find_item_by_id items it.id = some it := by
  intro items
  induction items with
  | nil => intro _ it hit; exact absurd hit (List.not_mem_nil it)
  | cons a rest ih =>
    intro hnd it hit
    rw [List.map_cons, List.nodup_cons] at hnd
    obtain ⟨hna, hndrest⟩ := hnd
    rcases List.mem_cons.mp hit with heq | htail
    · subst heq
      rw [find_item_by_id, List.find?_cons_of_pos rest (by simp)]
    · have hne : a.id ≠ it.id := fun h =>
        hna (h ▸ List.mem_map_of_mem (fun b => b.id) htail)
      rw [find_item_by_id, List.find?_cons_of_neg rest (by simpa using hne)]
      exact ih hndrest it htail

theorem sync_loop_find (products : List (ProductId × Product)) :
    ∀ (L : List CartItem) (s : Store),
      (L.map fun b => b.id).Nodup →
      ∀ it ∈ L, find_item_by_id s.items it.id = some it →
      find_item_by_id (sync_loop products L s).items it.id =
        some (match products.lookup it.product_id with
              | some p => { it with price := p.price }
              | none => it) := by
  intro L
  induction L with
  | nil => intro s _ it hit; exact absurd hit (List.not_mem_nil it)
  | cons a rest ih =>
    intro s hnd it hit hfind
    rw [List.map_cons, List.nodup_cons] at hnd
    obtain ⟨hna, hndrest⟩ := hnd
    rcases List.mem_cons.mp hit with heq | htail
    · subst heq
      have hothers : ∀ b ∈ rest, b.id ≠ it.id := fun b hb hbid =>
        hna (hbid ▸ List.mem_map_of_mem (fun c => c.id) hb)
      cases hl : products.lookup it.product_id with
      | none =>
        simp only [sync_loop, hl]
        rw [sync_loop_find_untouched products rest s it.id hothers]
        exact hfind
      | some p =>
        by_cases hpr : p.price ≠ it.price
        · simp only [sync_loop, hl, if_pos hpr]
          rw [sync_loop_find_untouched products rest _ it.id hothers]
          rw [find_update_item_price, if_pos rfl, hfind]
          rfl
        · simp only [sync_loop, hl, if_neg hpr]
          rw [sync_loop_find_untouched products rest s it.id hothers, hfind]
          rw [Ne, not_not] at hpr
          rw [hpr]
    · have hne : a.id ≠ it.id := fun h =>
        hna (h ▸ List.mem_map_of_mem (fun c => c.id) htail)
      cases hl : products.lookup a.product_id with
      | none =>
        simp only [sync_loop, hl]
        exact ih s hndrest it htail hfind
      | some p =>
        by_cases hpr : p.price ≠ a.price
        · simp only [sync_loop, hl, if_pos hpr]
          refine ih _ hndrest it htail ?_
          rw [find_update_item_price, if_neg hne]
          exact hfind
        · simp only [sync_loop, hl, if_neg hpr]
          exact ih s hndrest it htail hfind

theorem set_first_price_length (iid : Nat) (price : ℚ) :
    ∀ l : List CartItem, (set_first_price_by_id l iid price).length = l.length := by
  intro l
  induction l with
  | nil => rfl
  | cons a rest ih =>
    by_cases ha : (a.id == iid) = true
    · simp [set_first_price_by_id, ha]
    · simp [set_first_price_by_id, ha, ih]

theorem sync_loop_length (products : List (ProductId × Product)) :
    ∀ (L : List CartItem) (s : Store),
      (sync_loop products L s).items.length = s.items.length := by
  intro L
  induction L with
  | nil => intro s; rfl
  | cons a rest ih =>
    intro s
    cases hl : products.lookup a.product_id with
    | none => simp only [sync_loop, hl]; exact ih s
    | some p =>
      by_cases hpr : p.price ≠ a.price
      · simp only [sync_loop, hl, if_pos hpr]
        rw [ih]
        rw [update_item_price]
        cases find_item_by_id s.items a.id <;>
          simp [set_first_price_length]
      · simp only [sync_loop, hl, if_neg hpr]
        exact ih s

/-- C4: `sync_prices` overwrites each cart item's stored price with
the live catalog price fetched in one batch (an item whose stored
price differs is updated; an item whose price already agrees keeps its
value); an item whose product is absent from the batch result keeps
its stored price unchanged — and no item is deleted.  Quantities and
identities are untouched throughout. -/
theorem sync_prices_spec (cat : Catalog) (s : Store) (uid : UserId) (cart : Cart)
    (hcart : get_cart_by_user_id s uid = some cart)
    (hnd : (s.items.map fun b => b.id).Nodup) :
    (∀ it ∈ cart_items s cart.id,
      find_item_by_id (service_sync_prices cat s uid).1.items it.id =
        some { it with price := synced_price cat it })
  ∧ (service_sync_prices cat s uid).1.items.length = s.items.length := by
  by_cases hemp : (cart_items s cart.id).isEmpty = true
  · have hred : service_sync_prices cat s uid = service_get_cart cat s uid := by
      simp only [service_sync_prices, hcart, hemp, if_true]
    rw [hred]
    constructor
    · intro it hit
      rw [List.isEmpty_iff.mp hemp] at hit
      exact absurd hit (List.not_mem_nil it)
    · rw [service_get_cart_store, get_or_create_cart_items]
  · have hred : service_sync_prices cat s uid =
        service_get_cart cat
          (sync_loop (get_products_batch cat
            ((cart_items s cart.id).map fun it => it.product_id))
            (cart_items s cart.id) s) uid := by
      simp only [service_sync_prices, hcart, hemp, Bool.false_eq_true, if_false]
    have hnds : ((cart_items s cart.id).map fun b => b.id).Nodup := by
      refine List.Nodup.sublist ?_ hnd
      exact List.Sublist.map (fun b => b.id) (List.filter_sublist s.items)
    rw [hred]
    constructor
    · intro it hit
      rw [service_get_cart_store, get_or_create_cart_items]
      have hmem : it ∈ s.items := List.mem_of_mem_filter hit
      have hfind := find_item_of_mem s.items hnd it hmem
      rw [sync_loop_find _ (cart_items s cart.id) s hnds it hit hfind]
      have hlk := batch_lookup_mem cat it.product_id
        ((cart_items s cart.id).map fun b => b.product_id)
        (List.mem_map_of_mem (fun b => b.product_id) hit)
      rw [hlk, synced_price]
      cases get_product cat it.product_id <;> rfl
    · rw [service_get_cart_store, get_or_create_cart_items]
      exact sync_loop_length _ (cart_items s cart.id) s

/-- Witness for C4: the item stored at price 10 whose live price is 12
is updated to 12 by `sync_prices`; the item whose product is absent
from the catalog keeps its stored price 7; both items survive. -/
theorem sync_prices_spec_witness :
    find_item_by_id (service_sync_prices catLive12 storeTwoItems 0).1.items 1 =
      some ⟨1, 0, 5, 2, 12⟩
  ∧ find_item_by_id (service_sync_prices catLive12 storeTwoItems 0).1.items 2 =
      some ⟨2, 0, 6, 1, 7⟩
  ∧ (service_sync_prices catLive12 storeTwoItems 0).1.items.length = 2 := by
  obtain ⟨hfind, hlen⟩ :=
    sync_prices_spec catLive12 storeTwoItems 0 ⟨0, 0⟩ rfl (by decide)
  refine ⟨?_, ?_, hlen⟩
  · exact (hfind ⟨1, 0, 5, 2, 10⟩ (by decide)).trans rfl
  · exact (hfind ⟨2, 0, 6, 1, 7⟩ (by decide)).trans rfl

theorem get_cart_by_user_id_create (s : Store) (uid : UserId)
    (h : get_cart_by_user_id s uid = none) :
    get_cart_by_user_id (create_cart s uid).2 uid = some (create_cart s uid).1 := by
  rw [get_cart_by_user_id] at h ⊢
  rw [create_cart]
  simp only [List.find?_append, h, Option.none_or]
  rw [List.find?_cons_of_pos _ (by simp)]

/-- C10: for a user whose cart does not exist or has no items,
`sync_prices` does not fail — it performs no updates at all (it
coincides with `get_cart`, leaving every stored item untouched) and
returns the user's enriched cart, lazily creating a cart when none
exists; `prepare_checkout`, in contrast, fails with `cartEmpty` on the
very same state. -/
theorem sync_prices_empty_cart_spec (cat : Catalog) (s : Store) (uid : UserId)
    (h : get_cart_by_user_id s uid = none ∨
      ∃ cart, get_cart_by_user_id s uid = some cart ∧ cart_items s cart.id = []) :
    service_sync_prices cat s uid = service_get_cart cat s uid
  ∧ (service_sync_prices cat s uid).1.items = s.items
  ∧ (∃ cart, get_cart_by_user_id (service_sync_prices cat s uid).1 uid = some cart)
  ∧ ∀ shipping billing,
      (service_prepare_checkout cat s uid shipping billing).2 = .error .cartEmpty := by
  rcases h with hno | ⟨cart, hsome, hempty⟩
  · have heq : service_sync_prices cat s uid = service_get_cart cat s uid := by
      simp only [service_sync_prices, hno]
    refine ⟨heq, ?_, ?_, ?_⟩
    · rw [heq, service_get_cart_store, get_or_create_cart_items]
    · rw [heq, service_get_cart_store, get_or_create_cart]
      rw [hno]
      exact ⟨(create_cart s uid).1, get_cart_by_user_id_create s uid hno⟩
    · intro shipping billing
      simp only [service_prepare_checkout, hno]
  · have hemp : (cart_items s cart.id).isEmpty = true := by
      rw [hempty]; rfl
    have heq : service_sync_prices cat s uid = service_get_cart cat s uid := by
      simp only [service_sync_prices, hsome, hemp, if_true]
    refine ⟨heq, ?_, ?_, ?_⟩
    · rw [heq, service_get_cart_store, get_or_create_cart_items]
    · rw [heq, service_get_cart_store, get_or_create_cart, hsome]
      exact ⟨cart, hsome⟩
    · intro shipping billing
      simp only [service_prepare_checkout, hsome, hemp, if_true]

/-- Witness for C10 at concrete inputs: with no cart at all (and the
catalog down) `sync_prices` succeeds, changes no items and coincides
with `get_cart`, while `prepare_checkout` fails with `cartEmpty`; the
same holds for a user whose cart exists but is empty. -/
theorem sync_prices_empty_cart_spec_witness :
    service_sync_prices catDown emptyStore 0 = service_get_cart catDown emptyStore 0
  ∧ (service_sync_prices catDown emptyStore 0).1.items = []
  ∧ (service_prepare_checkout catDown emptyStore 0 "10 Main Street" none).2
      = .error .cartEmpty
  ∧ (service_prepare_checkout catDown storeOneCart 0 "10 Main Street" none).2
      = .error .cartEmpty := by
  obtain ⟨h1, h2, _, h4⟩ :=
    sync_prices_empty_cart_spec catDown emptyStore 0 (Or.inl rfl)
  obtain ⟨_, _, _, h8⟩ :=
    sync_prices_empty_cart_spec catDown storeOneCart 0 (Or.inr ⟨⟨0, 0⟩, rfl, rfl⟩)
  exact ⟨h1, h2, h4 "10 Main Street" none, h8 "10 Main Street" none⟩

/-- All line-item quantities in a row list are positive. -/
def all_quantities_pos (l : List CartItem) : Prop :=
  ∀ it ∈ l, 1 ≤ it.quantity

theorem service_get_cart_items (cat : Catalog) (s : Store) (uid : UserId) :
    (service_get_cart cat s uid).1.items = s.items := by
  rw [service_get_cart_store, get_or_create_cart_items]

theorem pos_bump_first_item (cid : Nat) (pid : ProductId) (q : Nat) (price : ℚ) :
    ∀ l : List CartItem, all_quantities_pos l →
      all_quantities_pos (bump_first_item l cid pid q price) := by
  intro l
  induction l with
  | nil => intro h; exact h
  | cons a rest ih =>
    intro h it hit
    have ha := h a (List.mem_cons_self a rest)
    have hrest : all_quantities_pos rest := fun b hb =>
      h b (List.mem_cons_of_mem a hb)
    by_cases hm : (a.cart_id == cid && a.product_id == pid) = true
    · rw [bump_first_item, if_pos hm] at hit
      rcases List.mem_cons.mp hit with heq | htail
      · subst heq; simp only; omega
      · exact h it (List.mem_cons_of_mem a htail)
    · rw [bump_first_item, if_neg hm] at hit
      rcases List.mem_cons.mp hit with heq | htail
      · subst heq; exact ha
      · exact ih hrest it htail

theorem pos_repo_add_item (s : Store) (cid : Nat) (pid : ProductId)
    (q : Nat) (price : ℚ) (hs : all_quantities_pos s.items) (hq : 1 ≤ q) :
    all_quantities_pos (repo_add_item s cid pid q price).items := by
  rw [repo_add_item]
  cases get_cart_item s cid pid with
  | some it => exact pos_bump_first_item cid pid q price s.items hs
  | none =>
    intro it hit
    rcases List.mem_append.mp hit with hl | hr
    · exact hs it hl
    · rw [List.mem_singleton] at hr
      subst hr
      exact hq

theorem pos_set_first_item_quantity (cid : Nat) (pid : ProductId) (q : Nat)
    (hq : 1 ≤ q) :
    ∀ l : List CartItem, all_quantities_pos l →
      all_quantities_pos (set_first_item_quantity l cid pid q) := by
  intro l
  induction l with
  | nil => intro h; exact h
  | cons a rest ih =>
    intro h it hit
    have hrest : all_quantities_pos rest := fun b hb =>
      h b (List.mem_cons_of_mem a hb)
    by_cases hm : (a.cart_id == cid && a.product_id == pid) = true
    · rw [set_first_item_quantity, if_pos hm] at hit
      rcases List.mem_cons.mp hit with heq | htail
      · subst heq; exact hq
      · exact h it (List.mem_cons_of_mem a htail)
    · rw [set_first_item_quantity, if_neg hm] at hit
      rcases List.mem_cons.mp hit with heq | htail
      · rw [heq]; exact h a (List.mem_cons_self a rest)
      · exact ih hrest it htail

theorem mem_remove_first_item (cid : Nat) (pid : ProductId) :
    ∀ l : List CartItem, ∀ it ∈ remove_first_item l cid pid, it ∈ l := by
  intro l
  induction l with
  | nil => intro it hit; exact hit
  | cons a rest ih =>
    intro it hit
    by_cases hm : (a.cart_id == cid && a.product_id == pid) = true
    · rw [remove_first_item, if_pos hm] at hit
      exact List.mem_cons_of_mem a hit
    · rw [remove_first_item, if_neg hm] at hit
      rcases List.mem_cons.mp hit with heq | htail
      · rw [heq]; exact List.mem_cons_self a rest
      · exact List.mem_cons_of_mem a (ih it htail)

theorem pos_set_first_price_by_id (iid : Nat) (price : ℚ) :
    ∀ l : List CartItem, all_quantities_pos l →
      all_quantities_pos (set_first_price_by_id l iid price) := by
  intro l
  induction l with
  | nil => intro h; exact h
  | cons a rest ih =>
    intro h it hit
    have hrest : all_quantities_pos rest := fun b hb =>
      h b (List.mem_cons_of_mem a hb)
    by_cases hm : (a.id == iid) = true
    · rw [set_first_price_by_id, if_pos hm] at hit
      rcases List.mem_cons.mp hit with heq | htail
      · rw [heq]; exact h a (List.mem_cons_self a rest)
      · exact h it (List.mem_cons_of_mem a htail)
    · rw [set_first_price_by_id, if_neg hm] at hit
      rcases List.mem_cons.mp hit with heq | htail
      · rw [heq]; exact h a (List.mem_cons_self a rest)
      · exact ih hrest it htail

theorem pos_update_item_price (s : Store) (iid : Nat) (price : ℚ)
    (hs : all_quantities_pos s.items) :
    all_quantities_pos (update_item_price s iid price).items := by
  rw [update_item_price]
  cases find_item_by_id s.items iid with
  | none => exact hs
  | some it => exact pos_set_first_price_by_id iid price s.items hs

theorem pos_sync_loop (products : List (ProductId × Product)) :
    ∀ (L : List CartItem) (s : Store), all_quantities_pos s.items →
      all_quantities_pos (sync_loop products L s).items := by
  intro L
  induction L with
  | nil => intro s hs; exact hs
  | cons a rest ih =>
    intro s hs
    cases hl : products.lookup a.product_id with
    | none => simp only [sync_loop, hl]; exact ih s hs
    | some p =>
      by_cases hpr : p.price ≠ a.price
      · simp only [sync_loop, hl, if_pos hpr]
        exact ih _ (pos_update_item_price s a.id p.price hs)
      · simp only [sync_loop, hl, if_neg hpr]
        exact ih s hs

theorem pos_service_add_item (cat : Catalog) (s : Store) (uid : UserId)
    (req : CartItemAdd) (hs : all_quantities_pos s.items)
    (hq : 1 ≤ req.quantity) :
    all_quantities_pos (service_add_item cat s uid req).1.items := by
  cases hgc : get_or_create_cart s uid with
  | mk cart s1 =>
    have hs1 : all_quantities_pos s1.items := by
      have := get_or_create_cart_items s uid
      rw [hgc] at this
      rw [this]
      exact hs
    cases hp : get_product cat req.product_id with
    | none => simp only [service_add_item, hgc, hp]; exact hs1
    | some p =>
      by_cases hact : p.is_active = true
      · by_cases hstock : p.stock < req.quantity +
            (match get_cart_item s1 cart.id req.product_id with
             | some it => it.quantity | none => 0)
        · simp only [service_add_item, hgc, hp, hact, Bool.not_true,
            Bool.false_eq_true, if_false, if_pos hstock]
          exact hs1
        · cases hsg : service_get_cart cat
            (repo_add_item s1 cart.id req.product_id req.quantity p.price) uid with
          | mk s3 resp =>
            simp only [service_add_item, hgc, hp, hact, Bool.not_true,
              Bool.false_eq_true, if_false, if_neg hstock, hsg]
            have := service_get_cart_items cat
              (repo_add_item s1 cart.id req.product_id req.quantity p.price) uid
            rw [hsg] at this
            rw [this]
            exact pos_repo_add_item s1 cart.id req.product_id req.quantity
              p.price hs1 hq
      · rw [Bool.not_eq_true] at hact
        simp only [service_add_item, hgc, hp, hact, Bool.not_false, if_true]
        exact hs1

theorem pos_bulk_loop (cat : Catalog) (cid : Nat) :
    ∀ (reqs : List CartItemAdd) (s : Store),
      all_quantities_pos s.items →
      (∀ r ∈ reqs, 1 ≤ r.quantity) →
      all_quantities_pos (bulk_loop cat cid reqs s).1.items := by
  intro reqs
  induction reqs with
  | nil => intro s hs _; exact hs
  | cons r rest ih =>
    intro s hs hq
    have hr := hq r (List.mem_cons_self r rest)
    have hrest := fun b hb => hq b (List.mem_cons_of_mem r hb)
    cases hp : get_product cat r.product_id with
    | none => simp only [bulk_loop, hp]; exact ih s hs hrest
    | some p =>
      by_cases hact : p.is_active = true
      · by_cases hstock : p.stock < r.quantity
        · simp only [bulk_loop, hp, hact, Bool.not_true, Bool.false_eq_true,
            if_false, if_pos hstock]
          exact ih s hs hrest
        · simp only [bulk_loop, hp, hact, Bool.not_true, Bool.false_eq_true,
            if_false, if_neg hstock]
          exact ih _ (pos_repo_add_item s cid r.product_id r.quantity
            p.price hs hr) hrest
      · rw [Bool.not_eq_true] at hact
        simp only [bulk_loop, hp, hact, Bool.not_false, if_true]
        exact ih s hs hrest

theorem pos_service_update_item (cat : Catalog) (s : Store) (uid : UserId)
    (pid : ProductId) (q : Nat) (hs : all_quantities_pos s.items)
    (hq : 1 ≤ q) :
    all_quantities_pos (service_update_item cat s uid pid q).1.items := by
  cases hc : get_cart_by_user_id s uid with
  | none => simp only [service_update_item, hc]; exact hs
  | some cart =>
    cases hi : get_cart_item s cart.id pid with
    | none => simp only [service_update_item, hc, hi]; exact hs
    | some it =>
      by_cases hav : check_product_availability cat pid q = true
      · cases hsg : service_get_cart cat (update_item_quantity s cart.id pid q) uid with
        | mk s2 resp =>
          simp only [service_update_item, hc, hi, hav, Bool.not_true,
            Bool.false_eq_true, if_false, hsg]
          have := service_get_cart_items cat (update_item_quantity s cart.id pid q) uid
          rw [hsg] at this
          rw [this]
          rw [update_item_quantity, hi]
          exact pos_set_first_item_quantity cart.id pid q hq s.items hs
      · rw [Bool.not_eq_true] at hav
        simp only [service_update_item, hc, hi, hav, Bool.not_false, if_true]
        exact hs

theorem pos_service_remove_item (cat : Catalog) (s : Store) (uid : UserId)
    (pid : ProductId) (hs : all_quantities_pos s.items) :
    all_quantities_pos (service_remove_item cat s uid pid).1.items := by
  cases hc : get_cart_by_user_id s uid with
  | none => simp only [service_remove_item, hc]; exact hs
  | some cart =>
    cases hr : remove_item s cart.id pid with
    | mk ok s1 =>
      have hs1 : all_quantities_pos s1.items := by
        rw [remove_item] at hr
        cases hi : get_cart_item s cart.id pid with
        | none => rw [hi] at hr; cases hr; exact hs
        | some it =>
          rw [hi] at hr
          cases hr
          exact fun b hb => hs b (mem_remove_first_item cart.id pid s.items b hb)
      cases ok with
      | false => simp only [service_remove_item, hc, hr, Bool.not_false, if_true]; exact hs1
      | true =>
        cases hsg : service_get_cart cat s1 uid with
        | mk s2 resp =>
          simp only [service_remove_item, hc, hr, Bool.not_true,
            Bool.false_eq_true, if_false, hsg]
          have := service_get_cart_items cat s1 uid
          rw [hsg] at this
          rw [this]
          exact hs1

theorem pos_service_clear_cart (s : Store) (uid : UserId)
    (hs : all_quantities_pos s.items) :
    all_quantities_pos (service_clear_cart s uid).1.items := by
  cases hc : get_cart_by_user_id s uid with
  | none => simp only [service_clear_cart, hc]; exact hs
  | some cart =>
    cases hcl : clear_cart s cart.id with
    | mk ok s1 =>
      simp only [service_clear_cart, hc, hcl]
      rw [clear_cart] at hcl
      cases hf : s.carts.find? fun c => c.id == cart.id with
      | none =>
        rw [hf] at hcl
        injection hcl with h1 h2
        rw [← h2]
        exact hs
      | some c =>
        rw [hf] at hcl
        injection hcl with h1 h2
        rw [← h2]
        exact fun b hb => hs b (List.mem_of_mem_filter hb)

theorem pos_service_sync_prices (cat : Catalog) (s : Store) (uid : UserId)
    (hs : all_quantities_pos s.items) :
    all_quantities_pos (service_sync_prices cat s uid).1.items := by
  cases hc : get_cart_by_user_id s uid with
  | none =>
    simp only [service_sync_prices, hc]
    rw [service_get_cart_items]
    exact hs
  | some cart =>
    by_cases hemp : (cart_items s cart.id).isEmpty = true
    · simp only [service_sync_prices, hc, hemp, if_true]
      rw [service_get_cart_items]
      exact hs
    · simp only [service_sync_prices, hc, hemp, Bool.false_eq_true, if_false]
      rw [service_get_cart_items]
      exact pos_sync_loop _ (cart_items s cart.id) s hs

theorem prepare_checkout_store (cat : Catalog) (s : Store) (uid : UserId)
    (shipping : String) (billing : Option String) :
    (service_prepare_checkout cat s uid shipping billing).1 = s := by
  cases hc : get_cart_by_user_id s uid with
  | none => simp only [service_prepare_checkout, hc]
  | some cart =>
    by_cases hemp : (cart_items s cart.id).isEmpty = true
    · simp only [service_prepare_checkout, hc, hemp, if_true]
    · simp only [service_prepare_checkout, hc, hemp, Bool.false_eq_true, if_false]

/-- C9 counterexample: the claimed upper bound of 100 is violated in a
reachable state — two consecutive DTO-valid `add_item` requests of
quantity 100 for a product with stock 200 accumulate to a single line
item of quantity 200. -/
theorem cart_quantity_bound_counterexample :
    Reachable storeAfterTwoAdds
  ∧ storeAfterTwoAdds.items.map (fun it => it.quantity) = [200]
  ∧ ¬(200 ≤ 100) := by
  refine ⟨?_, by decide, by decide⟩
  exact Reachable.add_item catStock200 storeAfterAdd100 0 ⟨1, 100⟩
    (Reachable.add_item catStock200 emptyStore 0 ⟨1, 100⟩ Reachable.init
      (by decide) (by decide))
    (by decide) (by decide)

/-- C9 (amended): in every store state reachable through the engine's
operations, every line item's quantity is a positive integer (at least
1).  The 1–100 bound holds for each individual request's quantity (the
DTO layer enforces it), but accumulated line-item quantities can
exceed 100, so the claimed upper bound is not an invariant. -/
theorem cart_quantity_positive (s : Store) (h : Reachable s) :
    ∀ it ∈ s.items, 1 ≤ it.quantity := by
  induction h with
  | init => intro it hit; exact absurd hit (List.not_mem_nil it)
  | get_cart cat s uid _ ih =>
    rw [service_get_cart_items]; exact ih
  | add_item cat s uid req _ hq1 _ ih =>
    exact pos_service_add_item cat s uid req ih hq1
  | add_items_bulk cat s uid reqs _ hq ih =>
    cases hgc : get_or_create_cart s uid with
    | mk cart s1 =>
      have hs1 : all_quantities_pos s1.items := by
        have := get_or_create_cart_items s uid
        rw [hgc] at this
        rw [this]
        exact ih
      have : service_add_items_bulk cat s uid reqs = bulk_loop cat cart.id reqs s1 := by
        rw [service_add_items_bulk, hgc]
      rw [this]
      exact pos_bulk_loop cat cart.id reqs s1 hs1 fun r hr => (hq r hr).1
  | update_item cat s uid pid q _ hq1 _ ih =>
    exact pos_service_update_item cat s uid pid q ih hq1
  | remove_item cat s uid pid _ ih =>
    exact pos_service_remove_item cat s uid pid ih
  | clear_cart s uid _ ih =>
    exact pos_service_clear_cart s uid ih
  | sync_prices cat s uid _ ih =>
    exact pos_service_sync_prices cat s uid ih
  | prepare_checkout cat s uid shipping billing _ ih =>
    rw [prepare_checkout_store]; exact ih

/-- Witness for C9's amended theorem: the accumulated line item of
quantity 200 in the reachable two-adds state indeed has a positive
quantity. -/
theorem cart_quantity_positive_witness : 1 ≤ itemQty200.quantity :=
  cart_quantity_positive storeAfterTwoAdds
    (Reachable.add_item catStock200 storeAfterAdd100 0 ⟨1, 100⟩
      (Reachable.add_item catStock200 emptyStore 0 ⟨1, 100⟩ Reachable.init
        (by decide) (by decide))
      (by decide) (by decide))
    itemQty200 (by decide)

end CartCore
